import Mathlib

set_option maxRecDepth 20000

/-!
Shallow embedding of the compiler front end of the Z language
("Z (Attempt 2)/Compiler/compiler.cpp" and "compiler.h", with the type
widths taken from "VM/vm.h": word_t is a 32-bit integer, byte_t an
8-bit integer used for register and opcode ids).

Modelling conventions:
* characters are Int (the source reads signed chars; the lexer's char
  variable is initialized to -1);
* TokenType is Nat, using the numeric values of the C++ enum (the source
  casts the enum to int and back when matching token tables);
* int_t arithmetic is unbounded Int (signed 32-bit overflow is undefined
  behavior in the source; no claim below exercises overflow);
* float_t arithmetic is exact Rat (no claim below depends on rounding);
* fallible code returns Except CompilerError or Option.
-/

namespace Z

/-- Error kinds of CompilerException::ErrorType (compiler.h). -/
inductive ErrorType where
  | UNKNOWN
  | STRING_TOO_LONG
  | INVALID_NUMBER
  | INVALID_CLOSING_PAREN
  | INVALID_CLOSING_SQUARE
  | INVALID_CLOSING_CURLY
  | MISSING_CLOSING_PAREN
  | MISSING_CLOSING_SQUARE
  | MISSING_CLOSING_CURLY
  | BINOP_MISSING_EXPRESSION
  | BINOP_ILLEGAL_PATTERN
  | OUT_OF_REGISTERS
deriving DecidableEq, Repr

/-- A CompilerException: kind plus the source position it was thrown with. -/
structure CompilerError where
  etype : ErrorType
  line : Int
  column : Int
deriving DecidableEq, Repr

/- Numeric values of the TokenType enum (compiler.h). -/
namespace TT

def IDENTIFIER : Nat := 0

def STRING : Nat := 1

def STAR : Nat := 12

def DASH : Nat := 14

def PLUS : Nat := 15

def SLASH : Nat := 26

def LEFT_PAREN : Nat := 27

def RIGHT_PAREN : Nat := 28

def LEFT_SQUARE : Nat := 29

def RIGHT_SQUARE : Nat := 30

def LEFT_CURLY : Nat := 31

def RIGHT_CURLY : Nat := 32

def SLASH_SLASH : Nat := 45

def SLASH_STAR : Nat := 46

def TRUE : Nat := 60

def FALSE : Nat := 61

def NUM_UNIDENTIFIED : Nat := 62

def NUM_INT : Nat := 63

def NUM_FLOAT : Nat := 64

end TT

/-- Payload of a token: the variants of the union in NoDestructToken,
discriminated the way the source actually uses it (hasStr marks the
string variant; NUM_INT and NUM_FLOAT mark the numeric variants). -/
inductive TokenData where
  | none
  | str (s : List Int)
  | int (v : Int)
  | float (v : Rat)
deriving DecidableEq, Repr

/-- A token: kind (TokenType enum value), source position, payload. -/
structure Token where
  type : Nat
  line : Int
  column : Int
  data : TokenData
deriving DecidableEq, Repr

/-- Union read of token.int_ (0 when another variant is active). -/
def Token.intVal (t : Token) : Int :=
  match t.data with
  | .int v => v
  | _ => 0

/-- Union read of token.float_ (0 when another variant is active). -/
def Token.floatVal (t : Token) : Rat :=
  match t.data with
  | .float v => v
  | _ => 0

/-- Index of the first token1 entry in the TokenType enum (TILDE). -/
def firstToken1 : Nat := 3

/-- Index of the first token2 entry in the TokenType enum (PLUS_EQUALS). -/
def firstToken2 : Nat := 35

/-- Index of the first keyword entry in the TokenType enum (INT). -/
def firstKeyword : Nat := 48

/-- The token1s table of one-character tokens (compiler.h), as char codes. -/
def token1s : List Int :=
  [126, 96, 33, 64, 35, 36, 37, 94, 38, 42, 95, 45, 43, 61,
   124, 92, 58, 59, 34, 39, 44, 46, 63, 47,
   40, 41, 91, 93, 123, 125, 60, 62]

/-- The token2s table of two-character combinations (compiler.h):
first component is the TokenType value of the already-matched token1,
second the char code that extends it. -/
def token2s : List (Nat × Int) :=
  [(15, 61), (14, 61), (12, 61), (26, 61), (9, 61), (16, 61), (33, 61),
   (34, 61), (15, 43), (14, 45), (26, 47), (26, 42), (12, 47)]

/-- The keyword table (compiler.h), as char-code lists:
int, float, bool, char, return, while, for, if, else, elif, and, or,
true, false. -/
def keywords : List (List Int) :=
  [[105, 110, 116], [102, 108, 111, 97, 116], [98, 111, 111, 108],
   [99, 104, 97, 114], [114, 101, 116, 117, 114, 110],
   [119, 104, 105, 108, 101], [102, 111, 114], [105, 102],
   [101, 108, 115, 101], [101, 108, 105, 102], [97, 110, 100],
   [111, 114], [116, 114, 117, 101], [102, 97, 108, 115, 101]]

/-- Modelled from the spec: utils.cpp (stringMatchAt) is not under src/;
per the spec the buffered text is matched against a fixed table
"exact, case-sensitive", yielding the index of the match or -1. -/
def stringMatchAt (s : List Int) (table : List (List Int)) : Int :=
  match table.findIdx? (fun k => k == s) with
  | some i => (i : Int)
  | Option.none => -1

/-- Scan the token1s table for a char; the resulting token kind value
(index plus firstToken1), or -1 on no match (compiler.cpp lines 213-220). -/
def token1Scan (c : Int) : Int :=
  match token1s.findIdx? (fun t => t == c) with
  | some i => (i : Int) + (firstToken1 : Int)
  | Option.none => -1

/-- Scan the token2s table for the pair of the previously matched token1
and the current char; the resulting token kind value or -1
(compiler.cpp lines 188-195). -/
def token2Scan (token1Index : Int) (c : Int) : Int :=
  match token2s.findIdx? (fun p => c == p.2 && token1Index == ((p.1 : Nat) : Int)) with
  | some i => (i : Int) + (firstToken2 : Int)
  | Option.none => -1

/-- Value of a base-N digit char with the source's three range checks,
Option.none on a non-digit or a digit not below the base
(compiler.cpp parseNumber digit branches). -/
def digitVal (base : Int) (c : Int) : Option Int :=
  if 48 ≤ c ∧ c ≤ 57 then
    (if c - 48 ≥ base then Option.none else some (c - 48))
  else if 65 ≤ c ∧ c ≤ 90 then
    (if c - 65 + 10 ≥ base then Option.none else some (c - 65 + 10))
  else if 97 ≤ c ∧ c ≤ 122 then
    (if c - 97 + 10 ≥ base then Option.none else some (c - 97 + 10))
  else Option.none

/-- The fractional-part loop of parseNumber: factor is multiplied by the
base before each digit is applied (compiler.cpp lines 339-357). -/
def parseFrac : List Int → Int → Rat → Rat → Option TokenData
  | [], _, fVal, _ => some (.float fVal)
  | c :: rest, base, fVal, factor =>
    let factor2 := factor * (base : Rat)
    match digitVal base c with
    | Option.none => Option.none
    | some d => parseFrac rest base (fVal + (d : Rat) / factor2) factor2

/-- The integer-part loop of parseNumber: a decimal point switches to the
fractional loop, seeding it with the integer accumulated so far
(compiler.cpp lines 333-386). -/
def parseIntDigits : List Int → Int → Int → Option TokenData
  | [], _, acc => some (.int acc)
  | c :: rest, base, acc =>
    if c = 46 then parseFrac rest base ((acc : Rat)) 1
    else
      match digitVal base c with
      | Option.none => Option.none
      | some d => parseIntDigits rest base (acc * base + d)

/-- Number Parser (compiler.cpp parseNumber). Rewrites an unresolved
numeral token in place to NUM_INT or NUM_FLOAT; Option.none models
returning 1 (failure). The token text is a NUL-free char list (C-string
contents); a missing second character corresponds to the NUL case. -/
def parseNumber (tok : Token) : Option Token :=
  if tok.type ≠ TT.NUM_UNIDENTIFIED then Option.none
  else
    match tok.data with
    | .str s =>
      let done : Option TokenData → Option Token := fun d =>
        match d with
        | some (.int v) => some { tok with type := TT.NUM_INT, data := .int v }
        | some (.float v) => some { tok with type := TT.NUM_FLOAT, data := .float v }
        | _ => Option.none
      match s with
      | [] => Option.none
      | c0 :: rest =>
        if c0 = 48 then
          let t := rest.headD 0
          if t < 48 ∨ t > 57 then
            if t = 120 then done (parseIntDigits rest.tail 16 0)
            else if t = 98 then done (parseIntDigits rest.tail 2 0)
            else if t = 46 ∨ t = 0 then done (parseIntDigits rest 10 0)
            else if t = 100 then done (parseIntDigits rest.tail 10 0)
            else Option.none
          else done (parseIntDigits s 10 0)
        else done (parseIntDigits s 10 0)
    | _ => Option.none

/-- Maximum number of characters in a string to be parsed (compiler.h). -/
def MAX_STR_SIZE : Nat := 1024

/-- Write into the lexer's working character array at index i
(str[i] = c). The source array cells past the written prefix are
uninitialized; reads of such cells are modelled as 0. -/
def bufWrite (arr : List Int) (i : Nat) (c : Int) : List Int :=
  if i < arr.length then arr.set i c
  else arr ++ List.replicate (i - arr.length) 0 ++ [c]

/-- Read a C string: the contents up to the first NUL. -/
def cstr (l : List Int) : List Int := l.takeWhile (fun c => c ≠ 0)

/-- The mutable state of the tokenize loop (compiler.cpp lines 63-93):
the working char array and its length, position counters, the current
char c, the mode flags, the pending token1 match, and the token list
built so far. -/
structure LexState where
  arr : List Int
  strlen : Nat
  line : Int
  column : Int
  c : Int
  isComment : Bool
  isBlockComment : Bool
  isStr : Bool
  isEscaped : Bool
  isNumber : Bool
  hasDecimal : Bool
  token1Index : Int
  tokens : List Token
deriving Repr

/-- Initial lexer state (compiler.cpp lines 63-93): c starts at -1,
line at 0, column at -1, all flags false, token1Index -1. -/
def initLexState : LexState :=
  { arr := [], strlen := 0, line := 0, column := -1, c := -1,
    isComment := false, isBlockComment := false, isStr := false,
    isEscaped := false, isNumber := false, hasDecimal := false,
    token1Index := -1, tokens := [] }

/-- End-of-token processing (compiler.cpp lines 226-263): finalize any
buffered number/keyword/identifier text, then reset and possibly start
a string or a fresh number with the current char. -/
def finalizeToken (s : LexState) (c : Int) (line column : Int) :
    Except CompilerError LexState :=
  let step1 : Except CompilerError LexState :=
    if s.strlen ≠ 0 then
      let arr2 := bufWrite s.arr s.strlen 0
      let text := cstr (arr2.take s.strlen)
      let s := { s with arr := arr2 }
      if s.isNumber then
        match parseNumber ⟨TT.NUM_UNIDENTIFIED, line, column, .str text⟩ with
        | Option.none => .error ⟨.INVALID_NUMBER, line, column⟩
        | some tok2 => .ok { s with tokens := s.tokens ++ [tok2] }
      else
        let kw := stringMatchAt text keywords
        if kw ≥ 0 then
          .ok { s with tokens :=
            s.tokens ++ [⟨kw.toNat + firstKeyword, line, column, .none⟩] }
        else
          .ok { s with tokens :=
            s.tokens ++ [⟨TT.IDENTIFIER, line, column, .str text⟩] }
    else .ok s
  match step1 with
  | .error e => .error e
  | .ok s =>
    let s := { s with isNumber := false, strlen := 0 }
    if c = 34 then .ok { s with isStr := true, isEscaped := false }
    else if 48 ≤ c ∧ c ≤ 57 then
      .ok { s with isNumber := true, hasDecimal := false,
                   arr := bufWrite s.arr 0 c, strlen := 1 }
    else .ok s

/-- The token1/token2 matching and default-mode processing of one char
(compiler.cpp lines 186-270), reached when no mode consumed the char.
The token2 branch reproduces the source's dangling else: the else of
the SLASH_STAR check appends the token, so a matched SLASH_SLASH both
starts a line comment and appends a token. -/
def lexTail (s : LexState) (c : Int) (isEnd : Bool) (line column : Int) :
    Except CompilerError LexState :=
  if s.token1Index ≥ 0 ∧ token2Scan s.token1Index c ≥ 0 then
    let t2 := token2Scan s.token1Index c
    let s := if t2 = ((TT.SLASH_SLASH : Nat) : Int) then { s with isComment := true } else s
    let s :=
      if t2 = ((TT.SLASH_STAR : Nat) : Int) then { s with isBlockComment := true }
      else { s with tokens := s.tokens ++ [⟨t2.toNat, line, column, .none⟩] }
    .ok { s with token1Index := -1, strlen := 0 }
  else
    let s :=
      if s.token1Index ≥ 0 then
        { s with tokens := s.tokens ++ [⟨s.token1Index.toNat, line, column, .none⟩] }
      else s
    let t1 := token1Scan c
    let s := { s with token1Index := t1 }
    if t1 ≥ 0 ∨ c = 32 ∨ c = 10 ∨ c = 9 ∨ c = 34 ∨ (48 ≤ c ∧ c ≤ 57) ∨
        s.isNumber = true ∨ isEnd = true then
      finalizeToken s c line column
    else
      if s.strlen ≥ MAX_STR_SIZE then .error ⟨.STRING_TOO_LONG, line, column⟩
      else .ok { s with arr := bufWrite s.arr s.strlen c, strlen := s.strlen + 1 }

/-- String-literal mode for one char (compiler.cpp lines 108-152).
The escape transformation writes back into the loop's char variable, so
an escaped n is seen as a newline by the next iteration's position
update; the source compensates by decrementing the line counter. -/
def lexStringStep (s : LexState) (c : Int) (line column : Int) :
    Except CompilerError LexState :=
  if s.isEscaped then
    let c2 := if c = 110 then 10 else if c = 99 then 27
              else if c = 48 then 0 else if c = 116 then 9 else c
    let line2 := if c = 110 then line - 1 else line
    let s := { s with c := c2, line := line2, isEscaped := false }
    if s.strlen ≥ MAX_STR_SIZE then .error ⟨.STRING_TOO_LONG, line2, column⟩
    else .ok { s with arr := bufWrite s.arr s.strlen c2, strlen := s.strlen + 1 }
  else if c = 34 then
    let arr2 := bufWrite s.arr s.strlen 0
    .ok { s with isStr := false, arr := arr2,
                 tokens := s.tokens ++
                   [⟨TT.STRING, line, column, TokenData.str (cstr (arr2.take s.strlen))⟩],
                 token1Index := -1, strlen := 0 }
  else if c = 92 then .ok { s with isEscaped := true }
  else if s.strlen ≥ MAX_STR_SIZE then .error ⟨.STRING_TOO_LONG, line, column⟩
  else .ok { s with arr := bufWrite s.arr s.strlen c, strlen := s.strlen + 1 }

/-- One iteration of the tokenize loop (compiler.cpp lines 96-271).
cIn is the char just read; on the end-of-input iteration the read fails
and the previous char is processed again (std::istream::get leaves its
argument unchanged on failure), which the driver models by passing the
stored char with isEnd true. -/
def lexStep (s0 : LexState) (cIn : Int) (isEnd : Bool) :
    Except CompilerError LexState :=
  let line := if s0.c = 10 then s0.line + 1 else s0.line
  let column := if s0.c = 10 then 0 else s0.column + 1
  let c := cIn
  let s : LexState := { s0 with line := line, column := column, c := c }
  if s.isStr then lexStringStep s c line column
  else if s.isBlockComment then
    (if s.strlen = 1 ∧ c = 47 then .ok { s with isBlockComment := false }
     else if c = 42 then .ok { s with strlen := 1 }
     else .ok { s with strlen := 0 })
  else if s.isComment then
    (if c = 10 then .ok { s with isComment := false } else .ok s)
  else if s.isNumber = true ∧ s.strlen = 1 ∧ s.arr.headD 0 = 48 ∧ (c = 120 ∨ c = 98) then
    .ok { s with arr := bufWrite s.arr s.strlen c, strlen := s.strlen + 1 }
  else if s.isNumber = true ∧ ((isEnd = false ∧ 48 ≤ c ∧ c ≤ 57) ∨ (65 ≤ c ∧ c ≤ 90) ∨
      (97 ≤ c ∧ c ≤ 122) ∨ (c = 46 ∧ s.hasDecimal = false)) then
    let s := if c = 46 then { s with hasDecimal := true } else s
    .ok { s with arr := bufWrite s.arr s.strlen c, strlen := s.strlen + 1 }
  else lexTail s c isEnd line column

/-- The tokenize loop driver: one lexStep per input char, then the final
iteration in which the read fails, end is set, and the stale char is
processed once more. -/
def lexRun : List Int → LexState → Except CompilerError LexState
  | [], s => lexStep s s.c true
  | ch :: rest, s =>
    match lexStep s ch false with
    | .error e => .error e
    | .ok s2 => lexRun rest s2

/-- Lexer entry point (compiler.cpp tokenize): the produced token list. -/
def tokenize (input : List Int) : Except CompilerError (List Token) :=
  match lexRun input initLexState with
  | .error e => .error e
  | .ok s => .ok s.tokens

/-- Source text as a char-code list. -/
def strIn (s : String) : List Int := s.toList.map (fun ch => (ch.toNat : Int))

/- Numeric values of the NodeType enum (compiler.h AST namespace). -/

/-- NodeType::NONE. -/
def NT_NONE : Nat := 0

/-- NodeType::PAREN_GROUP. -/
def NT_PAREN : Nat := 2

/-- NodeType::SQUARE_GROUP. -/
def NT_SQUARE : Nat := 3

/-- NodeType::CURLY_GROUP. -/
def NT_CURLY : Nat := 4

/-- Types an expression can evaluate to (compiler.h ExprType). -/
inductive ExprType where
  | UNKNOWN
  | INT
  | FLOAT
  | BOOL
  | CHAR
deriving DecidableEq, Repr

/-- Binary operation types (compiler.h OpType). -/
inductive OpType where
  | ADD
  | SUB
  | MULT
  | DIV
deriving DecidableEq, Repr

/-- AST nodes (compiler.h AST namespace): the token wrapper, the three
bracket groups, the five expression leaves, the implicit cast and the
binary operation. Group nodes are built with position (-1,-1); a cast's
position is its operand's; a binop's is its operator token's. -/
inductive Node where
  | token (t : Token)
  | parenGroup (xs : List Node)
  | squareGroup (xs : List Node)
  | curlyGroup (xs : List Node)
  | exprInt (v : Int) (line column : Int)
  | exprFloat (v : Rat) (line column : Int)
  | exprBool (v : Int) (line column : Int)
  | exprChar (v : Int) (line column : Int)
  | exprIdentifier (s : List Int) (line column : Int)
  | exprCast (source : Node) (castType : ExprType)
  | exprBinop (left right : Node) (op : OpType) (resultType : ExprType) (line column : Int)
deriving Repr

/-- The NodeType enum value of a node (Node::type in compiler.h). -/
def Node.ntype : Node → Nat
  | .token _ => 1
  | .parenGroup _ => NT_PAREN
  | .squareGroup _ => NT_SQUARE
  | .curlyGroup _ => NT_CURLY
  | .exprIdentifier _ _ _ => 5
  | .exprInt _ _ _ => 6
  | .exprFloat _ _ _ => 7
  | .exprBool _ _ _ => 8
  | .exprChar _ _ _ => 9
  | .exprCast _ _ => 10
  | .exprBinop _ _ _ _ _ _ => 11

/-- Node::isExpr: true exactly for the Expr subclasses. -/
def Node.isExpr : Node → Bool
  | .token _ => false
  | .parenGroup _ => false
  | .squareGroup _ => false
  | .curlyGroup _ => false
  | _ => true

/-- Expr::evalType (UNKNOWN for non-expression nodes, which the source
never reads). -/
def Node.evalType : Node → ExprType
  | .exprInt _ _ _ => .INT
  | .exprFloat _ _ _ => .FLOAT
  | .exprBool _ _ _ => .BOOL
  | .exprChar _ _ _ => .CHAR
  | .exprIdentifier _ _ _ => .UNKNOWN
  | .exprCast _ t => t
  | .exprBinop _ _ _ t _ _ => t
  | _ => .UNKNOWN

/-- Node::line. Group nodes are constructed with line -1. -/
def Node.nline : Node → Int
  | .token t => t.line
  | .parenGroup _ => -1
  | .squareGroup _ => -1
  | .curlyGroup _ => -1
  | .exprInt _ l _ => l
  | .exprFloat _ l _ => l
  | .exprBool _ l _ => l
  | .exprChar _ l _ => l
  | .exprIdentifier _ l _ => l
  | .exprCast src _ => src.nline
  | .exprBinop _ _ _ _ l _ => l

/-- Node::column. Group nodes are constructed with column -1. -/
def Node.ncolumn : Node → Int
  | .token t => t.column
  | .parenGroup _ => -1
  | .squareGroup _ => -1
  | .curlyGroup _ => -1
  | .exprInt _ _ c => c
  | .exprFloat _ _ c => c
  | .exprBool _ _ c => c
  | .exprChar _ _ c => c
  | .exprIdentifier _ _ c => c
  | .exprCast src _ => src.ncolumn
  | .exprBinop _ _ _ _ _ c => c

/-- First pass of constructAST (compiler.cpp lines 407-447): promote
literal, identifier and boolean tokens to typed leaf expression nodes.
An identifier token that lost its text payload throws UNKNOWN. -/
def promoteNode (n : Node) : Except CompilerError Node :=
  match n with
  | .token t =>
    if t.type = TT.NUM_INT then .ok (.exprInt t.intVal t.line t.column)
    else if t.type = TT.NUM_FLOAT then .ok (.exprFloat t.floatVal t.line t.column)
    else if t.type = TT.IDENTIFIER then
      match t.data with
      | .str sVal => .ok (.exprIdentifier sVal t.line t.column)
      | _ => .error ⟨.UNKNOWN, t.line, t.column⟩
    else if t.type = TT.TRUE then .ok (.exprBool 1 t.line t.column)
    else if t.type = TT.FALSE then .ok (.exprBool 0 t.line t.column)
    else .ok n
  | _ => .ok n

/-- An entry of the binop pattern table (compiler.h
ArithmeticBinopPattern): result type and the two operand types. -/
structure ArithmeticBinopPattern where
  resultType : ExprType
  aType : ExprType
  bType : ExprType
deriving DecidableEq, Repr

/-- The arithmeticBinopPatterns table (compiler.h lines 252-263), with
each constructor call expanded: the one-argument form repeats the type
three times, the two-argument form uses the first type as the result,
and the final entry uses the three-argument form (result INT, operands
BOOL and BOOL). -/
def arithmeticBinopPatterns : List ArithmeticBinopPattern :=
  [⟨.INT, .INT, .INT⟩, ⟨.FLOAT, .FLOAT, .FLOAT⟩, ⟨.CHAR, .CHAR, .CHAR⟩,
   ⟨.FLOAT, .FLOAT, .INT⟩, ⟨.FLOAT, .FLOAT, .CHAR⟩, ⟨.FLOAT, .FLOAT, .BOOL⟩,
   ⟨.INT, .INT, .CHAR⟩, ⟨.INT, .INT, .BOOL⟩, ⟨.CHAR, .CHAR, .BOOL⟩,
   ⟨.INT, .BOOL, .BOOL⟩]

/-- The pattern scan of the precedence passes (compiler.cpp lines
634-646 and 681-692): first entry matching the operand types in either
order. -/
def findPattern (a b : ExprType) : List ArithmeticBinopPattern → Option ArithmeticBinopPattern
  | [] => Option.none
  | p :: rest =>
    if (a = p.aType ∧ b = p.bType) ∨ (a = p.bType ∧ b = p.aType) then some p
    else findPattern a b rest

/-- Operand/result resolution for one binop (compiler.cpp lines
629-650): scan the pattern table, then wrap each operand whose type
differs from the result type in an implicit cast. Option.none models the
sentinel resultType staying UNKNOWN, which throws BINOP_ILLEGAL_PATTERN
at the call sites (no table entry has result UNKNOWN). -/
def resolveBinopOperands (left right : Node) : Option (Node × Node × ExprType) :=
  match findPattern left.evalType right.evalType arithmeticBinopPatterns with
  | Option.none => Option.none
  | some pat =>
    let rt := pat.resultType
    let l2 := if left.evalType ≠ rt then Node.exprCast left rt else left
    let r2 := if right.evalType ≠ rt then Node.exprCast right rt else right
    some (l2, r2, rt)

/-- Pass 1 of condenseAST (compiler.cpp lines 609-661): fold each STAR
or SLASH token with the expression nodes on both sides into a binop
node, scanning left to right and continuing after the fold point, so
chains left-associate. acc holds the already-scanned prefix reversed. -/
def passMD : List Node → List Node → Except CompilerError (List Node)
  | acc, [] => .ok acc.reverse
  | acc, n :: rest =>
    match n with
    | .token t =>
      if t.type = TT.STAR ∨ t.type = TT.SLASH then
        match acc, rest with
        | left :: accTail, right :: rest2 =>
          if left.isExpr = true ∧ right.isExpr = true then
            match resolveBinopOperands left right with
            | Option.none => .error ⟨.BINOP_ILLEGAL_PATTERN, t.line, t.column⟩
            | some (l2, r2, rt) =>
              passMD (Node.exprBinop l2 r2
                (if t.type = TT.STAR then .MULT else .DIV) rt t.line t.column :: accTail) rest2
          else .error ⟨.BINOP_MISSING_EXPRESSION, t.line, t.column⟩
        | _, _ => .error ⟨.BINOP_MISSING_EXPRESSION, t.line, t.column⟩
      else passMD (n :: acc) rest
    | _ => passMD (n :: acc) rest

/-- Pass 2 of condenseAST (compiler.cpp lines 663-703): the identical
fold over PLUS and DASH, run after pass 1 completes. -/
def passAS : List Node → List Node → Except CompilerError (List Node)
  | acc, [] => .ok acc.reverse
  | acc, n :: rest =>
    match n with
    | .token t =>
      if t.type = TT.PLUS ∨ t.type = TT.DASH then
        match acc, rest with
        | left :: accTail, right :: rest2 =>
          if left.isExpr = true ∧ right.isExpr = true then
            match resolveBinopOperands left right with
            | Option.none => .error ⟨.BINOP_ILLEGAL_PATTERN, t.line, t.column⟩
            | some (l2, r2, rt) =>
              passAS (Node.exprBinop l2 r2
                (if t.type = TT.PLUS then .ADD else .SUB) rt t.line t.column :: accTail) rest2
          else .error ⟨.BINOP_MISSING_EXPRESSION, t.line, t.column⟩
        | _, _ => .error ⟨.BINOP_MISSING_EXPRESSION, t.line, t.column⟩
      else passAS (n :: acc) rest
    | _ => passAS (n :: acc) rest

/-- The process section of condenseAST (label process, compiler.cpp
lines 602-705): the multiplicative pass over a bracket-free level,
then the additive pass. -/
def processPasses (l : List Node) : Except CompilerError (List Node) :=
  match passMD [] l with
  | .error e => .error e
  | .ok l2 => passAS [] l2

/-- The bracket-grouping loop of condenseAST (compiler.cpp lines
458-599), fuel-indexed (Option.none is exhausted fuel; the wrapper below
supplies enough). acc is the processed prefix of the current level in
reverse; lastLine/lastCol is the position of the node just before the
scan point in the remaining list, used by the MissingClosing throws
(ptr-- at end of input). On an opener the region after it is resolved
recursively, the group node (a parenthesis group of exactly one
expression collapses to that expression) is appended and scanning
resumes after the matching closer. On the matching closer the level is
run through the precedence passes and returned with the remainder; on a
wrong closer the InvalidClosing error of the encountered bracket kind
is thrown at that token's position. -/
def condenseScan : Nat → List Node → List Node → Nat → Int → Int →
    Option (Except CompilerError (List Node × List Node))
  | 0, _, _, _, _, _ => Option.none
  | Nat.succ fuel, acc, rest, ty, lastLine, lastCol =>
    match rest with
    | [] =>
      if ty = NT_NONE then
        some ((processPasses acc.reverse).map (fun out => (out, ([] : List Node))))
      else if ty = NT_PAREN then some (.error ⟨.MISSING_CLOSING_PAREN, lastLine, lastCol⟩)
      else if ty = NT_SQUARE then some (.error ⟨.MISSING_CLOSING_SQUARE, lastLine, lastCol⟩)
      else some (.error ⟨.MISSING_CLOSING_CURLY, lastLine, lastCol⟩)
    | n :: rest2 =>
      match n with
      | .token t =>
        if t.type = TT.LEFT_PAREN then
          match condenseScan fuel [] rest2 NT_PAREN n.nline n.ncolumn with
          | Option.none => Option.none
          | some (.error e) => some (.error e)
          | some (.ok (inner, rem)) =>
            let g : Node :=
              match inner with
              | [x] => if x.isExpr then x else .parenGroup inner
              | _ => .parenGroup inner
            condenseScan fuel (g :: acc) rem ty g.nline g.ncolumn
        else if t.type = TT.LEFT_SQUARE then
          match condenseScan fuel [] rest2 NT_SQUARE n.nline n.ncolumn with
          | Option.none => Option.none
          | some (.error e) => some (.error e)
          | some (.ok (inner, rem)) =>
            let g : Node := .squareGroup inner
            condenseScan fuel (g :: acc) rem ty g.nline g.ncolumn
        else if t.type = TT.LEFT_CURLY then
          match condenseScan fuel [] rest2 NT_CURLY n.nline n.ncolumn with
          | Option.none => Option.none
          | some (.error e) => some (.error e)
          | some (.ok (inner, rem)) =>
            let g : Node := .curlyGroup inner
            condenseScan fuel (g :: acc) rem ty g.nline g.ncolumn
        else if t.type = TT.RIGHT_PAREN then
          if ty = NT_PAREN then
            some ((processPasses acc.reverse).map (fun out => (out, rest2)))
          else some (.error ⟨.INVALID_CLOSING_PAREN, t.line, t.column⟩)
        else if t.type = TT.RIGHT_SQUARE then
          if ty = NT_SQUARE then
            some ((processPasses acc.reverse).map (fun out => (out, rest2)))
          else some (.error ⟨.INVALID_CLOSING_SQUARE, t.line, t.column⟩)
        else if t.type = TT.RIGHT_CURLY then
          if ty = NT_CURLY then
            some ((processPasses acc.reverse).map (fun out => (out, rest2)))
          else some (.error ⟨.INVALID_CLOSING_CURLY, t.line, t.column⟩)
        else condenseScan fuel (n :: acc) rest2 ty n.nline n.ncolumn
      | _ => condenseScan fuel (n :: acc) rest2 ty n.nline n.ncolumn

/-- condenseAST at the top level (type NONE over the whole node list).
The fuel length+1 always suffices (each recursive call consumes fuel 1
and at least one list element); the Option.none fallback is unreachable. -/
def condenseAST (nodes : List Node) : Except CompilerError (List Node) :=
  match condenseScan (nodes.length + 1) [] nodes NT_NONE (-1) (-1) with
  | some r => r.map Prod.fst
  | Option.none => .error ⟨.UNKNOWN, -1, -1⟩

/-- constructAST (compiler.cpp lines 397-456): wrap every token in a
node, promote the leaf tokens, then condense. -/
def constructAST (tokens : List Token) : Except CompilerError (List Node) :=
  match (tokens.map Node.token).mapM promoteNode with
  | .error e => .error e
  | .ok nodes => condenseAST nodes

/-- Modelled from the spec: the opcode header (included through vm.h)
is not under src/; the spec fixes only that the move-word-immediate
record starts with one opcode byte, whose numeric value it leaves to
the VM's opcode table. -/
def MOV_W : Nat := 0

/-- Modelled from the spec: the register_ namespace header is not under
src/; the spec says only that the pools are fixed-size. The claims
below do not depend on the chosen capacity. -/
def NUM_WORD_REGISTERS : Nat := 16

/-- Modelled from the spec: capacity of the byte-register pool (see
NUM_WORD_REGISTERS). -/
def NUM_BYTE_REGISTERS : Nat := 16

/-- Modelled from the spec: id of the first word register (register_::W0);
the numeric base is not fixed by the spec. -/
def W0 : Int := 0

/-- Modelled from the spec: id of the first byte register (register_::B0). -/
def B0 : Int := 16

/-- Size in bytes of opcode_t (a byte per vm.h's opcode ids). -/
def sizeof_opcode_t : Nat := 1

/-- Size in bytes of reg_t (a byte per vm.h's register ids). -/
def sizeof_reg_t : Nat := 1

/-- Size in bytes of int_t (the 4-byte signed integer of the
move-word-immediate record). -/
def sizeof_int_t : Nat := 4

/-- One ASM_WRITE to the output stream, at the granularity the source
writes: an opcode byte, a register-id byte, or a 4-byte integer. -/
inductive WriteItem where
  | opcode (v : Nat)
  | reg (v : Int)
  | int32 (v : Int)
deriving DecidableEq, Repr

/-- Byte width of a write, as added to the byte counter by ASM_WRITE. -/
def WriteItem.size : WriteItem → Nat
  | .opcode _ => sizeof_opcode_t
  | .reg _ => sizeof_reg_t
  | .int32 _ => sizeof_int_t

/-- The register pool state (compiler.h RegManager): occupancy of the
word and byte registers. -/
structure RegManager where
  wordsActive : List Bool
  bytesActive : List Bool
deriving DecidableEq, Repr

/-- RegManager's constructor: every slot of both pools free. -/
def RegManager.init : RegManager :=
  { wordsActive := List.replicate NUM_WORD_REGISTERS false,
    bytesActive := List.replicate NUM_BYTE_REGISTERS false }

/-- RegManager::getWord: first-fit over the word pool, marking the slot
occupied and returning W0 plus its index, or OUT_OF_REGISTERS at
position (-1,-1) when the pool is full. -/
def RegManager.getWord (r : RegManager) : Except CompilerError (Int × RegManager) :=
  match r.wordsActive.findIdx? (fun b => b == false) with
  | some i => .ok (W0 + (i : Int), { r with wordsActive := r.wordsActive.set i true })
  | Option.none => .error ⟨.OUT_OF_REGISTERS, -1, -1⟩

/-- RegManager::freeWord: mark a word slot free (no validation). -/
def RegManager.freeWord (r : RegManager) (reg : Int) : RegManager :=
  { r with wordsActive := r.wordsActive.set (reg - W0).toNat false }

/-- RegManager::getByte: first-fit over the byte pool. -/
def RegManager.getByte (r : RegManager) : Except CompilerError (Int × RegManager) :=
  match r.bytesActive.findIdx? (fun b => b == false) with
  | some i => .ok (B0 + (i : Int), { r with bytesActive := r.bytesActive.set i true })
  | Option.none => .error ⟨.OUT_OF_REGISTERS, -1, -1⟩

/-- RegManager::freeByte: mark a byte slot free (no validation). -/
def RegManager.freeByte (r : RegManager) (reg : Int) : RegManager :=
  { r with bytesActive := r.bytesActive.set (reg - B0).toNat false }

/-- makeExprBytecode (compiler.cpp lines 789-817). The RegManager
parameter is received by value (compiler.h line 577), so acquisitions
act on this local copy; the result carries the writes performed, the
byte-counter increase, ridOut, and the local copy's final state. Only
the INT case emits anything: it acquires a word register and writes the
move-word-immediate record (opcode, destination register, value); every
other node kind falls through the switch, leaving ridOut 0. -/
def makeExprBytecode (expr : Node) (reg : RegManager) :
    Except CompilerError (List WriteItem × Nat × Int × RegManager) :=
  match expr with
  | .exprInt v _ _ =>
    match RegManager.getWord reg with
    | .error e => .error e
    | .ok (ridOut, reg2) =>
      .ok ([.opcode MOV_W, .reg ridOut, .int32 v],
           sizeof_opcode_t + sizeof_reg_t + sizeof_int_t, ridOut, reg2)
  | _ => .ok ([], 0, 0, reg)

/-- makeBytecode (compiler.cpp lines 752-787): a fresh RegManager and a
zero byte counter, then makeExprBytecode on the first node when it is
an expression, passing the manager by value. Option.none models the
undefined dereference of list.begin() on an empty list. The manager in
the result is the one makeBytecode holds after the call: the fresh one,
untouched by the callee's copy. -/
def makeBytecode (list : List Node) :
    Option (Except CompilerError (List WriteItem × Nat × RegManager)) :=
  match list with
  | [] => Option.none
  | n :: _ =>
    let reg := RegManager.init
    if n.isExpr then
      some ((makeExprBytecode n reg).map (fun r => (r.1, r.2.1, reg)))
    else some (.ok ([], 0, reg))

/-- The compile_ pipeline (compiler.cpp lines 33-54) without the i/o
plumbing: tokenize, construct the AST, emit bytecode. The Option is
Option.none for the empty node list (see makeBytecode). -/
def compileModel (input : List Int) :
    Except CompilerError (Option (List WriteItem × Nat)) :=
  match tokenize input with
  | .error e => .error e
  | .ok toks =>
    match constructAST toks with
    | .error e => .error e
    | .ok nodes =>
      match makeBytecode nodes with
      | Option.none => .ok Option.none
      | some (.error e) => .error e
      | some (.ok (w, cnt, _)) => .ok (some (w, cnt))

/-- Outcome of the reference bracket matcher: the level closed and
these nodes follow the closer, or the first wrong-kind closer (its
bracket kind and position), or end-of-input with a kind still open. -/
inductive BRes where
  | balanced (rem : List Node)
  | invalid (kind : Nat) (line column : Int)
  | missing (kind : Nat)

/-- Reference bracket matcher for the spec's balanced-or-error
property, with the same fuel discipline as condenseScan: scan a level
for the matching same-kind closer, descending at openers; report the
first closer whose kind differs from the innermost open kind (with its
position), or the innermost kind still open at end-of-input. It tracks
brackets only — no grouping, no precedence passes. -/
def bscan : Nat → List Node → Nat → Option BRes
  | 0, _, _ => Option.none
  | Nat.succ fuel, rest, ty =>
    match rest with
    | [] => if ty = NT_NONE then some (.balanced []) else some (.missing ty)
    | n :: rest2 =>
      match n with
      | .token t =>
        if t.type = TT.LEFT_PAREN then
          match bscan fuel rest2 NT_PAREN with
          | Option.none => Option.none
          | some (.balanced rem) => bscan fuel rem ty
          | some r => some r
        else if t.type = TT.LEFT_SQUARE then
          match bscan fuel rest2 NT_SQUARE with
          | Option.none => Option.none
          | some (.balanced rem) => bscan fuel rem ty
          | some r => some r
        else if t.type = TT.LEFT_CURLY then
          match bscan fuel rest2 NT_CURLY with
          | Option.none => Option.none
          | some (.balanced rem) => bscan fuel rem ty
          | some r => some r
        else if t.type = TT.RIGHT_PAREN then
          if ty = NT_PAREN then some (.balanced rest2)
          else some (.invalid NT_PAREN t.line t.column)
        else if t.type = TT.RIGHT_SQUARE then
          if ty = NT_SQUARE then some (.balanced rest2)
          else some (.invalid NT_SQUARE t.line t.column)
        else if t.type = TT.RIGHT_CURLY then
          if ty = NT_CURLY then some (.balanced rest2)
          else some (.invalid NT_CURLY t.line t.column)
        else bscan fuel rest2 ty
      | _ => bscan fuel rest2 ty

/-- The reference matcher over a whole node list (the fuel condenseAST
itself uses). -/
def bscanTop (nodes : List Node) : Option BRes :=
  bscan (nodes.length + 1) nodes NT_NONE

/-- The InvalidClosing error kind of a bracket kind. -/
def invalidClosingFor (kind : Nat) : ErrorType :=
  if kind = NT_PAREN then .INVALID_CLOSING_PAREN
  else if kind = NT_SQUARE then .INVALID_CLOSING_SQUARE
  else .INVALID_CLOSING_CURLY

/-- The MissingClosing error kind of a bracket kind. -/
def missingClosingFor (kind : Nat) : ErrorType :=
  if kind = NT_PAREN then .MISSING_CLOSING_PAREN
  else if kind = NT_SQUARE then .MISSING_CLOSING_SQUARE
  else .MISSING_CLOSING_CURLY

/-- A condenseScan result that is an error of one of the two precedence
pass kinds (an error raised inside an already-completed group, which
pre-empts any bracket error further right). -/
def errBinop (g : Option (Except CompilerError (List Node × List Node))) : Prop :=
  ∃ e, g = some (.error e) ∧
    (e.etype = .BINOP_MISSING_EXPRESSION ∨ e.etype = .BINOP_ILLEGAL_PATTERN)

/-- Simulation relation between the reference matcher's outcome and
condenseScan's: on a balanced level condenseScan succeeds with the same
remainder; on a wrong-kind closer it throws the InvalidClosing error of
the encountered kind at that token's position; on an unclosed kind it
throws the matching MissingClosing error — in every case unless a
precedence pass of a completed group threw first. -/
def simRel (b : Option BRes)
    (g : Option (Except CompilerError (List Node × List Node))) : Prop :=
  match b with
  | Option.none => g = Option.none ∨ errBinop g
  | some (.balanced rem) => (∃ out, g = some (.ok (out, rem))) ∨ errBinop g
  | some (.invalid k l c) => g = some (.error ⟨invalidClosingFor k, l, c⟩) ∨ errBinop g
  | some (.missing k) =>
      (∃ l c, g = some (.error ⟨missingClosingFor k, l, c⟩)) ∨ errBinop g

/-- The front half of the compile_ pipeline: tokenize, then construct
the AST (compiler.cpp lines 39-47). -/
def astOf (input : List Int) : Except CompilerError (List Node) :=
  match tokenize input with
  | .error e => .error e
  | .ok toks => constructAST toks

/-! Helper lemmas. -/

/-- Errors thrown by the multiplicative pass are one of the two binop
kinds. -/
theorem passMD_err : ∀ (n : Nat) (l acc : List Node) (e : CompilerError),
    l.length ≤ n → passMD acc l = .error e →
    e.etype = .BINOP_MISSING_EXPRESSION ∨ e.etype = .BINOP_ILLEGAL_PATTERN := by
  intro n
  induction n with
  | zero =>
    intro l acc e hlen h
    cases l with
    | nil => simp [passMD] at h
    | cons a b => simp at hlen
  | succ n ih =>
    intro l acc e hlen h
    cases l with
    | nil => simp [passMD] at h
    | cons node rest =>
      have hr : rest.length ≤ n := by simp at hlen; omega
      cases node with
      | token t =>
        by_cases hop : t.type = TT.STAR ∨ t.type = TT.SLASH
        · cases acc with
          | nil =>
            cases rest with
            | nil => simp [passMD, hop] at h; simp [← h]
            | cons r rest2 => simp [passMD, hop] at h; simp [← h]
          | cons left accTail =>
            cases rest with
            | nil => simp [passMD, hop] at h; simp [← h]
            | cons right rest2 =>
              by_cases hexpr : left.isExpr = true ∧ right.isExpr = true
              · rcases hres : resolveBinopOperands left right with _ | ⟨l2, r2, rt⟩
                · simp [passMD, hop, hexpr, hres] at h; simp [← h]
                · simp only [passMD, hop, hexpr, hres, if_true, and_self] at h
                  exact ih rest2 _ e (by simp at hlen; omega) h
              · simp [passMD, hop, hexpr] at h
                simp [← h]
        · rw [passMD.eq_def] at h
          simp only [hop, if_false] at h
          exact ih rest _ e hr h
      | parenGroup xs =>
        rw [passMD.eq_def] at h
        exact ih rest _ e hr h
      | squareGroup xs =>
        rw [passMD.eq_def] at h
        exact ih rest _ e hr h
      | curlyGroup xs =>
        rw [passMD.eq_def] at h
        exact ih rest _ e hr h
      | exprInt v a b =>
        rw [passMD.eq_def] at h
        exact ih rest _ e hr h
      | exprFloat v a b =>
        rw [passMD.eq_def] at h
        exact ih rest _ e hr h
      | exprBool v a b =>
        rw [passMD.eq_def] at h
        exact ih rest _ e hr h
      | exprChar v a b =>
        rw [passMD.eq_def] at h
        exact ih rest _ e hr h
      | exprIdentifier s a b =>
        rw [passMD.eq_def] at h
        exact ih rest _ e hr h
      | exprCast src ct =>
        rw [passMD.eq_def] at h
        exact ih rest _ e hr h
      | exprBinop a b c d f g =>
        rw [passMD.eq_def] at h
        exact ih rest _ e hr h

/-- Errors thrown by the additive pass are one of the two binop kinds. -/
theorem passAS_err : ∀ (n : Nat) (l acc : List Node) (e : CompilerError),
    l.length ≤ n → passAS acc l = .error e →
    e.etype = .BINOP_MISSING_EXPRESSION ∨ e.etype = .BINOP_ILLEGAL_PATTERN := by
  intro n
  induction n with
  | zero =>
    intro l acc e hlen h
    cases l with
    | nil => simp [passAS] at h
    | cons a b => simp at hlen
  | succ n ih =>
    intro l acc e hlen h
    cases l with
    | nil => simp [passAS] at h
    | cons node rest =>
      have hr : rest.length ≤ n := by simp at hlen; omega
      cases node with
      | token t =>
        by_cases hop : t.type = TT.PLUS ∨ t.type = TT.DASH
        · cases acc with
          | nil =>
            cases rest with
            | nil => simp [passAS, hop] at h; simp [← h]
            | cons r rest2 => simp [passAS, hop] at h; simp [← h]
          | cons left accTail =>
            cases rest with
            | nil => simp [passAS, hop] at h; simp [← h]
            | cons right rest2 =>
              by_cases hexpr : left.isExpr = true ∧ right.isExpr = true
              · rcases hres : resolveBinopOperands left right with _ | ⟨l2, r2, rt⟩
                · simp [passAS, hop, hexpr, hres] at h; simp [← h]
                · simp only [passAS, hop, hexpr, hres, if_true, and_self] at h
                  exact ih rest2 _ e (by simp at hlen; omega) h
              · simp [passAS, hop, hexpr] at h
                simp [← h]
        · rw [passAS.eq_def] at h
          simp only [hop, if_false] at h
          exact ih rest _ e hr h
      | parenGroup xs =>
        rw [passAS.eq_def] at h
        exact ih rest _ e hr h
      | squareGroup xs =>
        rw [passAS.eq_def] at h
        exact ih rest _ e hr h
      | curlyGroup xs =>
        rw [passAS.eq_def] at h
        exact ih rest _ e hr h
      | exprInt v a b =>
        rw [passAS.eq_def] at h
        exact ih rest _ e hr h
      | exprFloat v a b =>
        rw [passAS.eq_def] at h
        exact ih rest _ e hr h
      | exprBool v a b =>
        rw [passAS.eq_def] at h
        exact ih rest _ e hr h
      | exprChar v a b =>
        rw [passAS.eq_def] at h
        exact ih rest _ e hr h
      | exprIdentifier s a b =>
        rw [passAS.eq_def] at h
        exact ih rest _ e hr h
      | exprCast src ct =>
        rw [passAS.eq_def] at h
        exact ih rest _ e hr h
      | exprBinop a b c d f g =>
        rw [passAS.eq_def] at h
        exact ih rest _ e hr h

/-- Errors thrown by the precedence passes are one of the two binop
kinds. -/
theorem processPasses_err (l : List Node) (e : CompilerError)
    (h : processPasses l = .error e) :
    e.etype = .BINOP_MISSING_EXPRESSION ∨ e.etype = .BINOP_ILLEGAL_PATTERN := by
  unfold processPasses at h
  cases hmd : passMD [] l with
  | error e2 =>
    rw [hmd] at h
    cases h
    exact passMD_err l.length l [] e le_rfl hmd
  | ok l2 =>
    rw [hmd] at h
    exact passAS_err l2.length l2 [] e le_rfl h

/-- A non-token node is skipped by the reference matcher. -/
theorem bscan_cons_other (fuel : Nat) (node : Node) (rest2 : List Node) (ty : Nat)
    (hnt : ∀ t, node ≠ Node.token t) :
    bscan (fuel + 1) (node :: rest2) ty = bscan fuel rest2 ty := by
  cases node <;> first | (exact absurd rfl (hnt _)) | rfl

/-- A non-token node is pushed onto the processed prefix by the
grouping scan. -/
theorem condenseScan_cons_other (fuel : Nat) (acc : List Node) (node : Node)
    (rest2 : List Node) (ty : Nat) (ll lc : Int)
    (hnt : ∀ t, node ≠ Node.token t) :
    condenseScan (fuel + 1) acc (node :: rest2) ty ll lc =
      condenseScan fuel (node :: acc) rest2 ty node.nline node.ncolumn := by
  cases node <;> first | (exact absurd rfl (hnt _)) | rfl

/-- Shape of a balanced reference-matcher result: the remainder is no
longer than the input, strictly shorter inside a bracket level (the
closer is consumed), and empty at the top level. -/
theorem bscan_balanced_spec : ∀ (fuel : Nat) (rest : List Node) (ty : Nat) (rem : List Node),
    bscan fuel rest ty = some (.balanced rem) →
    rem.length ≤ rest.length ∧ (ty ≠ NT_NONE → rem.length < rest.length) ∧
      (ty = NT_NONE → rem = []) := by
  intro fuel
  induction fuel with
  | zero => intro rest ty rem h; simp [bscan] at h
  | succ fuel ih =>
    intro rest ty rem h
    cases rest with
    | nil =>
      by_cases h0 : ty = NT_NONE
      · simp [bscan, h0] at h
        subst h
        exact ⟨le_rfl, fun hn => absurd h0 hn, fun _ => rfl⟩
      · simp [bscan, h0] at h
    | cons node rest2 =>
      cases node with
      | token t =>
        by_cases h1 : t.type = TT.LEFT_PAREN
        · rw [bscan.eq_def] at h
          simp only [if_pos h1] at h
          rcases hb : bscan fuel rest2 NT_PAREN with _ | b
          · rw [hb] at h; simp at h
          · rw [hb] at h
            cases b with
            | balanced rem1 =>
              have h2 := ih rest2 NT_PAREN rem1 hb
              have h3 := ih rem1 ty rem h
              have hstrict : rem1.length < rest2.length := h2.2.1 (by decide)
              refine ⟨by simp; omega, fun _ => by simp; omega, h3.2.2⟩
            | invalid k l c => simp at h
            | missing k => simp at h
        · by_cases h2 : t.type = TT.LEFT_SQUARE
          · rw [bscan.eq_def] at h
            simp only [if_neg h1, if_pos h2] at h
            rcases hb : bscan fuel rest2 NT_SQUARE with _ | b
            · rw [hb] at h; simp at h
            · rw [hb] at h
              cases b with
              | balanced rem1 =>
                have hh2 := ih rest2 NT_SQUARE rem1 hb
                have h3 := ih rem1 ty rem h
                have hstrict : rem1.length < rest2.length := hh2.2.1 (by decide)
                refine ⟨by simp; omega, fun _ => by simp; omega, h3.2.2⟩
              | invalid k l c => simp at h
              | missing k => simp at h
          · by_cases h3 : t.type = TT.LEFT_CURLY
            · rw [bscan.eq_def] at h
              simp only [if_neg h1, if_neg h2, if_pos h3] at h
              rcases hb : bscan fuel rest2 NT_CURLY with _ | b
              · rw [hb] at h; simp at h
              · rw [hb] at h
                cases b with
                | balanced rem1 =>
                  have hh2 := ih rest2 NT_CURLY rem1 hb
                  have hh3 := ih rem1 ty rem h
                  have hstrict : rem1.length < rest2.length := hh2.2.1 (by decide)
                  refine ⟨by simp; omega, fun _ => by simp; omega, hh3.2.2⟩
                | invalid k l c => simp at h
                | missing k => simp at h
            · by_cases h4 : t.type = TT.RIGHT_PAREN
              · rw [bscan.eq_def] at h
                simp only [if_neg h1, if_neg h2, if_neg h3, if_pos h4] at h
                by_cases hty : ty = NT_PAREN
                · simp [hty] at h
                  subst h
                  exact ⟨by simp, fun _ => by simp, fun hn => absurd hn (by rw [hty]; decide)⟩
                · simp [hty] at h
              · by_cases h5 : t.type = TT.RIGHT_SQUARE
                · rw [bscan.eq_def] at h
                  simp only [if_neg h1, if_neg h2, if_neg h3, if_neg h4, if_pos h5] at h
                  by_cases hty : ty = NT_SQUARE
                  · simp [hty] at h
                    subst h
                    exact ⟨by simp, fun _ => by simp, fun hn => absurd hn (by rw [hty]; decide)⟩
                  · simp [hty] at h
                · by_cases h6 : t.type = TT.RIGHT_CURLY
                  · rw [bscan.eq_def] at h
                    simp only [if_neg h1, if_neg h2, if_neg h3, if_neg h4, if_neg h5, if_pos h6] at h
                    by_cases hty : ty = NT_CURLY
                    · simp [hty] at h
                      subst h
                      exact ⟨by simp, fun _ => by simp, fun hn => absurd hn (by rw [hty]; decide)⟩
                    · simp [hty] at h
                  · rw [bscan.eq_def] at h
                    simp only [if_neg h1, if_neg h2, if_neg h3, if_neg h4, if_neg h5, if_neg h6] at h
                    have h7 := ih rest2 ty rem h
                    refine ⟨by simp; omega, fun hn => by have := h7.2.1 hn; simp; omega, h7.2.2⟩
      | parenGroup xs =>
        rw [bscan_cons_other fuel _ rest2 ty (fun t h => Node.noConfusion h)] at h
        have h7 := ih rest2 ty rem h
        refine ⟨by simp; omega, fun hn => by have := h7.2.1 hn; simp; omega, h7.2.2⟩
      | squareGroup xs =>
        rw [bscan_cons_other fuel _ rest2 ty (fun t h => Node.noConfusion h)] at h
        have h7 := ih rest2 ty rem h
        refine ⟨by simp; omega, fun hn => by have := h7.2.1 hn; simp; omega, h7.2.2⟩
      | curlyGroup xs =>
        rw [bscan_cons_other fuel _ rest2 ty (fun t h => Node.noConfusion h)] at h
        have h7 := ih rest2 ty rem h
        refine ⟨by simp; omega, fun hn => by have := h7.2.1 hn; simp; omega, h7.2.2⟩
      | exprInt v a b =>
        rw [bscan_cons_other fuel _ rest2 ty (fun t h => Node.noConfusion h)] at h
        have h7 := ih rest2 ty rem h
        refine ⟨by simp; omega, fun hn => by have := h7.2.1 hn; simp; omega, h7.2.2⟩
      | exprFloat v a b =>
        rw [bscan_cons_other fuel _ rest2 ty (fun t h => Node.noConfusion h)] at h
        have h7 := ih rest2 ty rem h
        refine ⟨by simp; omega, fun hn => by have := h7.2.1 hn; simp; omega, h7.2.2⟩
      | exprBool v a b =>
        rw [bscan_cons_other fuel _ rest2 ty (fun t h => Node.noConfusion h)] at h
        have h7 := ih rest2 ty rem h
        refine ⟨by simp; omega, fun hn => by have := h7.2.1 hn; simp; omega, h7.2.2⟩
      | exprChar v a b =>
        rw [bscan_cons_other fuel _ rest2 ty (fun t h => Node.noConfusion h)] at h
        have h7 := ih rest2 ty rem h
        refine ⟨by simp; omega, fun hn => by have := h7.2.1 hn; simp; omega, h7.2.2⟩
      | exprIdentifier s a b =>
        rw [bscan_cons_other fuel _ rest2 ty (fun t h => Node.noConfusion h)] at h
        have h7 := ih rest2 ty rem h
        refine ⟨by simp; omega, fun hn => by have := h7.2.1 hn; simp; omega, h7.2.2⟩
      | exprCast src ct =>
        rw [bscan_cons_other fuel _ rest2 ty (fun t h => Node.noConfusion h)] at h
        have h7 := ih rest2 ty rem h
        refine ⟨by simp; omega, fun hn => by have := h7.2.1 hn; simp; omega, h7.2.2⟩
      | exprBinop a b c d f g =>
        rw [bscan_cons_other fuel _ rest2 ty (fun t h => Node.noConfusion h)] at h
        have h7 := ih rest2 ty rem h
        refine ⟨by simp; omega, fun hn => by have := h7.2.1 hn; simp; omega, h7.2.2⟩

/-- With fuel exceeding the list length the reference matcher never
runs out. -/
theorem bscan_fuel : ∀ (fuel : Nat) (rest : List Node) (ty : Nat),
    rest.length < fuel → bscan fuel rest ty ≠ Option.none := by
  intro fuel
  induction fuel with
  | zero => intro rest ty hlen; simp at hlen
  | succ fuel ih =>
    intro rest ty hlen
    cases rest with
    | nil =>
      rw [bscan.eq_def]
      by_cases h0 : ty = NT_NONE <;> simp [h0]
    | cons node rest2 =>
      have hlen2 : rest2.length < fuel := by simp at hlen; omega
      cases node with
      | token t =>
        by_cases h1 : t.type = TT.LEFT_PAREN
        · rw [bscan.eq_def]
          simp only [if_pos h1]
          rcases hb : bscan fuel rest2 NT_PAREN with _ | b
          · exact absurd hb (ih rest2 NT_PAREN hlen2)
          · cases b with
            | balanced rem1 =>
              have hrem := (bscan_balanced_spec fuel rest2 NT_PAREN rem1 hb).2.1 (by decide)
              exact ih rem1 ty (by omega)
            | invalid k l c => simp
            | missing k => simp
        · by_cases h2 : t.type = TT.LEFT_SQUARE
          · rw [bscan.eq_def]
            simp only [if_neg h1, if_pos h2]
            rcases hb : bscan fuel rest2 NT_SQUARE with _ | b
            · exact absurd hb (ih rest2 NT_SQUARE hlen2)
            · cases b with
              | balanced rem1 =>
                have hrem := (bscan_balanced_spec fuel rest2 NT_SQUARE rem1 hb).2.1 (by decide)
                exact ih rem1 ty (by omega)
              | invalid k l c => simp
              | missing k => simp
          · by_cases h3 : t.type = TT.LEFT_CURLY
            · rw [bscan.eq_def]
              simp only [if_neg h1, if_neg h2, if_pos h3]
              rcases hb : bscan fuel rest2 NT_CURLY with _ | b
              · exact absurd hb (ih rest2 NT_CURLY hlen2)
              · cases b with
                | balanced rem1 =>
                  have hrem := (bscan_balanced_spec fuel rest2 NT_CURLY rem1 hb).2.1 (by decide)
                  exact ih rem1 ty (by omega)
                | invalid k l c => simp
                | missing k => simp
            · by_cases h4 : t.type = TT.RIGHT_PAREN
              · rw [bscan.eq_def]
                simp only [if_neg h1, if_neg h2, if_neg h3, if_pos h4]
                by_cases hty : ty = NT_PAREN <;> simp [hty]
              · by_cases h5 : t.type = TT.RIGHT_SQUARE
                · rw [bscan.eq_def]
                  simp only [if_neg h1, if_neg h2, if_neg h3, if_neg h4, if_pos h5]
                  by_cases hty : ty = NT_SQUARE <;> simp [hty]
                · by_cases h6 : t.type = TT.RIGHT_CURLY
                  · rw [bscan.eq_def]
                    simp only [if_neg h1, if_neg h2, if_neg h3, if_neg h4, if_neg h5, if_pos h6]
                    by_cases hty : ty = NT_CURLY <;> simp [hty]
                  · rw [bscan.eq_def]
                    simp only [if_neg h1, if_neg h2, if_neg h3, if_neg h4, if_neg h5, if_neg h6]
                    exact ih rest2 ty hlen2
      | parenGroup xs =>
        rw [bscan_cons_other fuel _ rest2 ty (fun t h => Node.noConfusion h)]
        exact ih rest2 ty hlen2
      | squareGroup xs =>
        rw [bscan_cons_other fuel _ rest2 ty (fun t h => Node.noConfusion h)]
        exact ih rest2 ty hlen2
      | curlyGroup xs =>
        rw [bscan_cons_other fuel _ rest2 ty (fun t h => Node.noConfusion h)]
        exact ih rest2 ty hlen2
      | exprInt v a b =>
        rw [bscan_cons_other fuel _ rest2 ty (fun t h => Node.noConfusion h)]
        exact ih rest2 ty hlen2
      | exprFloat v a b =>
        rw [bscan_cons_other fuel _ rest2 ty (fun t h => Node.noConfusion h)]
        exact ih rest2 ty hlen2
      | exprBool v a b =>
        rw [bscan_cons_other fuel _ rest2 ty (fun t h => Node.noConfusion h)]
        exact ih rest2 ty hlen2
      | exprChar v a b =>
        rw [bscan_cons_other fuel _ rest2 ty (fun t h => Node.noConfusion h)]
        exact ih rest2 ty hlen2
      | exprIdentifier s a b =>
        rw [bscan_cons_other fuel _ rest2 ty (fun t h => Node.noConfusion h)]
        exact ih rest2 ty hlen2
      | exprCast src ct =>
        rw [bscan_cons_other fuel _ rest2 ty (fun t h => Node.noConfusion h)]
        exact ih rest2 ty hlen2
      | exprBinop a b c d f g =>
        rw [bscan_cons_other fuel _ rest2 ty (fun t h => Node.noConfusion h)]
        exact ih rest2 ty hlen2

/-- A binop error from an inner completed group satisfies the
simulation relation whatever the reference matcher reported. -/
theorem simRel_of_errBinop (b : Option BRes)
    (g : Option (Except CompilerError (List Node × List Node)))
    (h : errBinop g) : simRel b g := by
  rcases b with _ | b
  · exact Or.inr h
  · cases b <;> exact Or.inr h

/-- The simulation: the grouping scan agrees with the reference bracket
matcher run with the same fuel, in every state of the scan (any
processed prefix and any recorded last position), up to pre-emption by
a binop error from a completed group's precedence passes. -/
theorem condense_sim : ∀ (fuel : Nat) (rest : List Node) (ty : Nat) (acc : List Node) (ll lc : Int),
    simRel (bscan fuel rest ty) (condenseScan fuel acc rest ty ll lc) := by
  intro fuel
  induction fuel with
  | zero => intro rest ty acc ll lc; exact Or.inl rfl
  | succ fuel ih =>
    intro rest ty acc ll lc
    cases rest with
    | nil =>
      by_cases h0 : ty = NT_NONE
      · rw [bscan.eq_def, condenseScan.eq_def]
        simp only [if_pos h0]
        rcases hp : processPasses acc.reverse with e | out
        · exact simRel_of_errBinop _ _ ⟨e, rfl, processPasses_err _ _ hp⟩
        · exact Or.inl ⟨out, rfl⟩
      · rw [bscan.eq_def, condenseScan.eq_def]
        simp only [if_neg h0]
        by_cases hp2 : ty = NT_PAREN
        · simp only [if_pos hp2]
          subst hp2
          exact Or.inl ⟨ll, lc, rfl⟩
        · simp only [if_neg hp2]
          by_cases hp3 : ty = NT_SQUARE
          · simp only [if_pos hp3]
            subst hp3
            exact Or.inl ⟨ll, lc, rfl⟩
          · simp only [if_neg hp3]
            refine Or.inl ⟨ll, lc, ?_⟩
            simp [missingClosingFor, hp2, hp3]
    | cons node rest2 =>
      cases node with
      | token t =>
        by_cases h1 : t.type = TT.LEFT_PAREN
        · rw [bscan.eq_def, condenseScan.eq_def]
          simp only [if_pos h1]
          have hin := ih rest2 NT_PAREN [] (Node.token t).nline (Node.token t).ncolumn
          rcases hb : bscan fuel rest2 NT_PAREN with _ | b
          · rw [hb] at hin
            rcases hin with hg | hg
            · rw [hg]; exact Or.inl rfl
            · rcases hg with ⟨e, hg, he⟩
              rw [hg]
              exact simRel_of_errBinop _ _ ⟨e, rfl, he⟩
          · rw [hb] at hin
            cases b with
            | balanced rem =>
              rcases hin with ⟨out, hg⟩ | hg
              · rw [hg]
                exact ih rem ty _ _ _
              · rcases hg with ⟨e, hg, he⟩
                rw [hg]
                exact simRel_of_errBinop _ _ ⟨e, rfl, he⟩
            | invalid k l c =>
              rcases hin with hg | hg
              · rw [hg]; exact Or.inl rfl
              · rcases hg with ⟨e, hg, he⟩
                rw [hg]
                exact simRel_of_errBinop _ _ ⟨e, rfl, he⟩
            | missing k =>
              rcases hin with hg | hg
              · rcases hg with ⟨l, c, hg⟩
                rw [hg]
                exact Or.inl ⟨l, c, rfl⟩
              · rcases hg with ⟨e, hg, he⟩
                rw [hg]
                exact simRel_of_errBinop _ _ ⟨e, rfl, he⟩
        · by_cases h2 : t.type = TT.LEFT_SQUARE
          · rw [bscan.eq_def, condenseScan.eq_def]
            simp only [if_neg h1, if_pos h2]
            have hin := ih rest2 NT_SQUARE [] (Node.token t).nline (Node.token t).ncolumn
            rcases hb : bscan fuel rest2 NT_SQUARE with _ | b
            · rw [hb] at hin
              rcases hin with hg | hg
              · rw [hg]; exact Or.inl rfl
              · rcases hg with ⟨e, hg, he⟩
                rw [hg]
                exact simRel_of_errBinop _ _ ⟨e, rfl, he⟩
            · rw [hb] at hin
              cases b with
              | balanced rem =>
                rcases hin with ⟨out, hg⟩ | hg
                · rw [hg]
                  exact ih rem ty _ _ _
                · rcases hg with ⟨e, hg, he⟩
                  rw [hg]
                  exact simRel_of_errBinop _ _ ⟨e, rfl, he⟩
              | invalid k l c =>
                rcases hin with hg | hg
                · rw [hg]; exact Or.inl rfl
                · rcases hg with ⟨e, hg, he⟩
                  rw [hg]
                  exact simRel_of_errBinop _ _ ⟨e, rfl, he⟩
              | missing k =>
                rcases hin with hg | hg
                · rcases hg with ⟨l, c, hg⟩
                  rw [hg]
                  exact Or.inl ⟨l, c, rfl⟩
                · rcases hg with ⟨e, hg, he⟩
                  rw [hg]
                  exact simRel_of_errBinop _ _ ⟨e, rfl, he⟩
          · by_cases h3 : t.type = TT.LEFT_CURLY
            · rw [bscan.eq_def, condenseScan.eq_def]
              simp only [if_neg h1, if_neg h2, if_pos h3]
              have hin := ih rest2 NT_CURLY [] (Node.token t).nline (Node.token t).ncolumn
              rcases hb : bscan fuel rest2 NT_CURLY with _ | b
              · rw [hb] at hin
                rcases hin with hg | hg
                · rw [hg]; exact Or.inl rfl
                · rcases hg with ⟨e, hg, he⟩
                  rw [hg]
                  exact simRel_of_errBinop _ _ ⟨e, rfl, he⟩
              · rw [hb] at hin
                cases b with
                | balanced rem =>
                  rcases hin with ⟨out, hg⟩ | hg
                  · rw [hg]
                    exact ih rem ty _ _ _
                  · rcases hg with ⟨e, hg, he⟩
                    rw [hg]
                    exact simRel_of_errBinop _ _ ⟨e, rfl, he⟩
                | invalid k l c =>
                  rcases hin with hg | hg
                  · rw [hg]; exact Or.inl rfl
                  · rcases hg with ⟨e, hg, he⟩
                    rw [hg]
                    exact simRel_of_errBinop _ _ ⟨e, rfl, he⟩
                | missing k =>
                  rcases hin with hg | hg
                  · rcases hg with ⟨l, c, hg⟩
                    rw [hg]
                    exact Or.inl ⟨l, c, rfl⟩
                  · rcases hg with ⟨e, hg, he⟩
                    rw [hg]
                    exact simRel_of_errBinop _ _ ⟨e, rfl, he⟩
            · by_cases h4 : t.type = TT.RIGHT_PAREN
              · rw [bscan.eq_def, condenseScan.eq_def]
                simp only [if_neg h1, if_neg h2, if_neg h3, if_pos h4]
                by_cases hty : ty = NT_PAREN
                · simp only [if_pos hty]
                  rcases hp : processPasses acc.reverse with e | out
                  · exact simRel_of_errBinop _ _ ⟨e, rfl, processPasses_err _ _ hp⟩
                  · exact Or.inl ⟨out, rfl⟩
                · simp only [if_neg hty]
                  exact Or.inl rfl
              · by_cases h5 : t.type = TT.RIGHT_SQUARE
                · rw [bscan.eq_def, condenseScan.eq_def]
                  simp only [if_neg h1, if_neg h2, if_neg h3, if_neg h4, if_pos h5]
                  by_cases hty : ty = NT_SQUARE
                  · simp only [if_pos hty]
                    rcases hp : processPasses acc.reverse with e | out
                    · exact simRel_of_errBinop _ _ ⟨e, rfl, processPasses_err _ _ hp⟩
                    · exact Or.inl ⟨out, rfl⟩
                  · simp only [if_neg hty]
                    exact Or.inl rfl
                · by_cases h6 : t.type = TT.RIGHT_CURLY
                  · rw [bscan.eq_def, condenseScan.eq_def]
                    simp only [if_neg h1, if_neg h2, if_neg h3, if_neg h4, if_neg h5, if_pos h6]
                    by_cases hty : ty = NT_CURLY
                    · simp only [if_pos hty]
                      rcases hp : processPasses acc.reverse with e | out
                      · exact simRel_of_errBinop _ _ ⟨e, rfl, processPasses_err _ _ hp⟩
                      · exact Or.inl ⟨out, rfl⟩
                    · simp only [if_neg hty]
                      exact Or.inl rfl
                  · rw [bscan.eq_def, condenseScan.eq_def]
                    simp only [if_neg h1, if_neg h2, if_neg h3, if_neg h4, if_neg h5, if_neg h6]
                    exact ih rest2 ty _ _ _
      | parenGroup xs =>
        rw [bscan_cons_other fuel _ rest2 ty (fun t h => Node.noConfusion h),
            condenseScan_cons_other fuel acc _ rest2 ty ll lc (fun t h => Node.noConfusion h)]
        exact ih rest2 ty _ _ _
      | squareGroup xs =>
        rw [bscan_cons_other fuel _ rest2 ty (fun t h => Node.noConfusion h),
            condenseScan_cons_other fuel acc _ rest2 ty ll lc (fun t h => Node.noConfusion h)]
        exact ih rest2 ty _ _ _
      | curlyGroup xs =>
        rw [bscan_cons_other fuel _ rest2 ty (fun t h => Node.noConfusion h),
            condenseScan_cons_other fuel acc _ rest2 ty ll lc (fun t h => Node.noConfusion h)]
        exact ih rest2 ty _ _ _
      | exprInt v a b =>
        rw [bscan_cons_other fuel _ rest2 ty (fun t h => Node.noConfusion h),
            condenseScan_cons_other fuel acc _ rest2 ty ll lc (fun t h => Node.noConfusion h)]
        exact ih rest2 ty _ _ _
      | exprFloat v a b =>
        rw [bscan_cons_other fuel _ rest2 ty (fun t h => Node.noConfusion h),
            condenseScan_cons_other fuel acc _ rest2 ty ll lc (fun t h => Node.noConfusion h)]
        exact ih rest2 ty _ _ _
      | exprBool v a b =>
        rw [bscan_cons_other fuel _ rest2 ty (fun t h => Node.noConfusion h),
            condenseScan_cons_other fuel acc _ rest2 ty ll lc (fun t h => Node.noConfusion h)]
        exact ih rest2 ty _ _ _
      | exprChar v a b =>
        rw [bscan_cons_other fuel _ rest2 ty (fun t h => Node.noConfusion h),
            condenseScan_cons_other fuel acc _ rest2 ty ll lc (fun t h => Node.noConfusion h)]
        exact ih rest2 ty _ _ _
      | exprIdentifier s a b =>
        rw [bscan_cons_other fuel _ rest2 ty (fun t h => Node.noConfusion h),
            condenseScan_cons_other fuel acc _ rest2 ty ll lc (fun t h => Node.noConfusion h)]
        exact ih rest2 ty _ _ _
      | exprCast src ct =>
        rw [bscan_cons_other fuel _ rest2 ty (fun t h => Node.noConfusion h),
            condenseScan_cons_other fuel acc _ rest2 ty ll lc (fun t h => Node.noConfusion h)]
        exact ih rest2 ty _ _ _
      | exprBinop a b c d f g =>
        rw [bscan_cons_other fuel _ rest2 ty (fun t h => Node.noConfusion h),
            condenseScan_cons_other fuel acc _ rest2 ty ll lc (fun t h => Node.noConfusion h)]
        exact ih rest2 ty _ _ _

/-- Unfolding of the tokenize loop driver on a non-final char. -/
theorem lexRun_cons (ch : Int) (rest : List Int) (s : LexState) :
    lexRun (ch :: rest) s =
      match lexStep s ch false with
      | .error e => .error e
      | .ok s2 => lexRun rest s2 := rfl

/-- A successful iteration advances the tokenize loop driver. -/
theorem lexRun_cons_ok (ch : Int) (rest : List Int) (s s2 : LexState)
    (h : lexStep s ch false = .ok s2) : lexRun (ch :: rest) s = lexRun rest s2 := by
  rw [lexRun_cons, h]

/-- One iteration in clean string mode on an ordinary char (not a
quote, not a backslash), with room in the buffer: the char is appended. -/
theorem lexStep_string_plain (s : LexState) (c : Int)
    (hs : s.isStr = true) (he : s.isEscaped = false)
    (hq : c ≠ 34) (hb : c ≠ 92) (hlen : s.strlen < MAX_STR_SIZE) :
    lexStep s c false = .ok { s with
      line := if s.c = 10 then s.line + 1 else s.line,
      column := if s.c = 10 then 0 else s.column + 1,
      c := c,
      arr := bufWrite s.arr s.strlen c, strlen := s.strlen + 1 } := by
  unfold lexStep lexStringStep
  simp [hs, he, hq, hb, Nat.not_le.mpr hlen]

/-- One iteration in clean string mode on an ordinary char with the
buffer already at MAX_STR_SIZE: STRING_TOO_LONG is thrown. -/
theorem lexStep_string_long (s : LexState) (c : Int)
    (hs : s.isStr = true) (he : s.isEscaped = false)
    (hq : c ≠ 34) (hb : c ≠ 92) (hlen : MAX_STR_SIZE ≤ s.strlen) :
    lexStep s c false = .error ⟨.STRING_TOO_LONG,
      (if s.c = 10 then s.line + 1 else s.line), (if s.c = 10 then 0 else s.column + 1)⟩ := by
  unfold lexStep lexStringStep
  simp [hs, he, hq, hb, hlen]

/-- Running the loop in string mode over ordinary content whose length
overflows the buffer always throws STRING_TOO_LONG. -/
theorem lexRun_string_overflow : ∀ (content : List Int) (rest : List Int) (s : LexState),
    (∀ c ∈ content, c ≠ 34 ∧ c ≠ 92) →
    s.isStr = true → s.isEscaped = false →
    s.strlen ≤ MAX_STR_SIZE → MAX_STR_SIZE < s.strlen + content.length →
    ∃ l col, lexRun (content ++ rest) s = .error ⟨.STRING_TOO_LONG, l, col⟩ := by
  intro content
  induction content with
  | nil =>
    intro rest s hpl hs he hle hlt
    simp at hlt
    omega
  | cons c cs ih =>
    intro rest s hpl hs he hle hlt
    have hc := hpl c (by simp)
    by_cases hfull : MAX_STR_SIZE ≤ s.strlen
    · exact ⟨(if s.c = 10 then s.line + 1 else s.line), (if s.c = 10 then 0 else s.column + 1),
        by rw [List.cons_append, lexRun_cons, lexStep_string_long s c hs he hc.1 hc.2 hfull]⟩
    · have hstep := lexStep_string_plain s c hs he hc.1 hc.2 (by omega)
      obtain ⟨l, col, hrun⟩ :=
        ih rest { s with
            line := if s.c = 10 then s.line + 1 else s.line,
            column := if s.c = 10 then 0 else s.column + 1,
            c := c,
            arr := bufWrite s.arr s.strlen c, strlen := s.strlen + 1 }
          (fun d hd => hpl d (by simp [hd])) hs he
          (by show s.strlen + 1 ≤ MAX_STR_SIZE; omega)
          (by show MAX_STR_SIZE < s.strlen + 1 + cs.length; simp at hlt; omega)
      exact ⟨l, col, by rw [List.cons_append, lexRun_cons, hstep]; exact hrun⟩

/-- Running the loop in string mode over 97-chars that fit in the
buffer: the chars are appended, the column advances, and everything
else is untouched. -/
theorem lexRun_string_repl97 : ∀ (n : Nat) (rest : List Int) (s : LexState),
    s.isStr = true → s.isEscaped = false → s.c ≠ 10 →
    s.strlen + n ≤ MAX_STR_SIZE → s.strlen = s.arr.length →
    ∃ s2 : LexState, lexRun (List.replicate n 97 ++ rest) s = lexRun rest s2 ∧
      s2.arr = s.arr ++ List.replicate n 97 ∧ s2.strlen = s.strlen + n ∧
      s2.line = s.line ∧ s2.column = s.column + n ∧ s2.c ≠ 10 ∧
      s2.isComment = s.isComment ∧ s2.isBlockComment = s.isBlockComment ∧
      s2.isStr = s.isStr ∧ s2.isEscaped = s.isEscaped ∧ s2.isNumber = s.isNumber ∧
      s2.hasDecimal = s.hasDecimal ∧ s2.token1Index = s.token1Index ∧
      s2.tokens = s.tokens := by
  intro n
  induction n with
  | zero =>
    intro rest s hs he hc hle hal
    exact ⟨s, by simp, by simp, by simp, rfl, by simp, hc, rfl, rfl, rfl, rfl, rfl, rfl, rfl, rfl⟩
  | succ n ih =>
    intro rest s hs he hc hle hal
    have hstep := lexStep_string_plain s 97 hs he (by decide) (by decide) (by omega)
    have hbw : bufWrite s.arr s.strlen 97 = s.arr ++ [97] := by
      unfold bufWrite
      rw [hal]
      simp
    obtain ⟨s2, hrun, ha, hsl, hln, hcol, hc2, hf1, hf2, hf3, hf4, hf5, hf6, hf7, hf8⟩ :=
      ih rest
      { s with
        line := if s.c = 10 then s.line + 1 else s.line,
        column := if s.c = 10 then 0 else s.column + 1,
        c := 97,
        arr := bufWrite s.arr s.strlen 97, strlen := s.strlen + 1 }
      hs he (by show (97 : Int) ≠ 10; decide)
      (by show s.strlen + 1 + n ≤ MAX_STR_SIZE; omega)
      (by show s.strlen + 1 = (bufWrite s.arr s.strlen 97).length; rw [hbw]; simp [hal])
    refine ⟨s2, ?_, ?_, by rw [hsl]; show s.strlen + 1 + n = s.strlen + (n + 1); omega,
      ?_, ?_, hc2, hf1, hf2, hf3, hf4, hf5, hf6, hf7, hf8⟩
    · rw [List.replicate_succ, List.cons_append, lexRun_cons, hstep]
      show lexRun (List.replicate n 97 ++ rest) _ = _
      exact hrun
    · rw [ha]
      show bufWrite s.arr s.strlen 97 ++ List.replicate n 97 = _
      rw [hbw, List.replicate_succ]
      simp
    · rw [hln]
      show (if s.c = 10 then s.line + 1 else s.line) = s.line
      rw [if_neg hc]
    · rw [hcol]
      show (if s.c = 10 then 0 else s.column + 1) + (n : Int) = s.column + ((n : Nat) + 1 : Nat)
      rw [if_neg hc]
      push_cast
      ring

/-- One iteration in clean string mode on the closing quote: the STRING
token is emitted with the buffered contents and string mode ends. -/
theorem lexStep_string_close (s : LexState) (hs : s.isStr = true) (he : s.isEscaped = false)
    (hc : s.c ≠ 10) :
    lexStep s 34 false = .ok { s with
      isStr := false,
      arr := bufWrite s.arr s.strlen 0,
      tokens := s.tokens ++
        [⟨TT.STRING, s.line, s.column + 1,
          TokenData.str (cstr ((bufWrite s.arr s.strlen 0).take s.strlen))⟩],
      token1Index := -1, strlen := 0,
      column := s.column + 1, c := 34 } := by
  unfold lexStep lexStringStep
  simp [hs, he, if_neg hc]

/-- The end-of-input iteration, reached with a stale quote char in
default mode and an empty buffer, emits nothing. -/
theorem lexStep_end_quiet (s : LexState)
    (h1 : s.isStr = false) (h2 : s.isBlockComment = false) (h3 : s.isComment = false)
    (h4 : s.isNumber = false) (h5 : s.c = 34) (h6 : s.strlen = 0) (h7 : s.token1Index = -1) :
    ∃ s2, lexStep s s.c true = .ok s2 ∧ s2.tokens = s.tokens := by
  have htok : token1Scan 34 = 21 := by decide
  refine ⟨{ s with
      column := s.column + 1
      c := 34
      token1Index := 21
      isStr := true
      isEscaped := false
      isNumber := false
      strlen := 0 }, ?_, by simp⟩
  unfold lexStep lexTail finalizeToken
  simp [h1, h2, h3, h4, h5, h6, h7, htok]

/-- Reading a run of 97-chars back as a C string returns it unchanged. -/
theorem cstr_replicate97 (n : Nat) : cstr (List.replicate n 97) = List.replicate n 97 := by
  induction n with
  | zero => rfl
  | succ n ih =>
    rw [List.replicate_succ]
    unfold cstr at ih ⊢
    rw [List.takeWhile_cons]
    norm_num [ih]

/-! Claims. -/

/-- Claim C1: for the source text "2+3*4" the AST builder produces an
additive binary-operation root whose right child is the multiplicative
binary-operation node for 3*4 — structurally 2+(3*4), never (2+3)*4 —
because the multiplicative pass completes over the level before the
additive pass runs. -/
theorem c1_precedence :
    astOf (strIn "2+3*4") =
      .ok [Node.exprBinop (Node.exprInt 2 0 1)
        (Node.exprBinop (Node.exprInt 3 0 3) (Node.exprInt 4 0 5) OpType.MULT ExprType.INT 0 4)
        OpType.ADD ExprType.INT 0 2] := by
  have h : strIn "2+3*4" = [50, 43, 51, 42, 52] := rfl
  rw [h]
  have e0 : lexStep initLexState (50 : Int) false = .ok
      { arr := [50], strlen := 1, line := 0, column := 0, c := 50,
        isComment := false, isBlockComment := false, isStr := false,
        isEscaped := false, isNumber := true, hasDecimal := false,
        token1Index := -1, tokens := [] } := rfl
  have e1 : lexStep
      { arr := [50], strlen := 1, line := 0, column := 0, c := 50,
        isComment := false, isBlockComment := false, isStr := false,
        isEscaped := false, isNumber := true, hasDecimal := false,
        token1Index := -1, tokens := [] } (43 : Int) false = .ok
      { arr := [50, 0], strlen := 0, line := 0, column := 1, c := 43,
        isComment := false, isBlockComment := false, isStr := false,
        isEscaped := false, isNumber := false, hasDecimal := false,
        token1Index := 15, tokens := [⟨63, 0, 1, TokenData.int 2⟩] } := rfl
  have e2 : lexStep
      { arr := [50, 0], strlen := 0, line := 0, column := 1, c := 43,
        isComment := false, isBlockComment := false, isStr := false,
        isEscaped := false, isNumber := false, hasDecimal := false,
        token1Index := 15, tokens := [⟨63, 0, 1, TokenData.int 2⟩] } (51 : Int) false = .ok
      { arr := [51, 0], strlen := 1, line := 0, column := 2, c := 51,
        isComment := false, isBlockComment := false, isStr := false,
        isEscaped := false, isNumber := true, hasDecimal := false,
        token1Index := -1, tokens := [⟨63, 0, 1, TokenData.int 2⟩,
          ⟨15, 0, 2, TokenData.none⟩] } := rfl
  have e3 : lexStep
      { arr := [51, 0], strlen := 1, line := 0, column := 2, c := 51,
        isComment := false, isBlockComment := false, isStr := false,
        isEscaped := false, isNumber := true, hasDecimal := false,
        token1Index := -1, tokens := [⟨63, 0, 1, TokenData.int 2⟩,
          ⟨15, 0, 2, TokenData.none⟩] } (42 : Int) false = .ok
      { arr := [51, 0], strlen := 0, line := 0, column := 3, c := 42,
        isComment := false, isBlockComment := false, isStr := false,
        isEscaped := false, isNumber := false, hasDecimal := false,
        token1Index := 12, tokens := [⟨63, 0, 1, TokenData.int 2⟩,
          ⟨15, 0, 2, TokenData.none⟩,
          ⟨63, 0, 3, TokenData.int 3⟩] } := rfl
  have e4 : lexStep
      { arr := [51, 0], strlen := 0, line := 0, column := 3, c := 42,
        isComment := false, isBlockComment := false, isStr := false,
        isEscaped := false, isNumber := false, hasDecimal := false,
        token1Index := 12, tokens := [⟨63, 0, 1, TokenData.int 2⟩,
          ⟨15, 0, 2, TokenData.none⟩,
          ⟨63, 0, 3, TokenData.int 3⟩] } (52 : Int) false = .ok
      { arr := [52, 0], strlen := 1, line := 0, column := 4, c := 52,
        isComment := false, isBlockComment := false, isStr := false,
        isEscaped := false, isNumber := true, hasDecimal := false,
        token1Index := -1, tokens := [⟨63, 0, 1, TokenData.int 2⟩,
          ⟨15, 0, 2, TokenData.none⟩,
          ⟨63, 0, 3, TokenData.int 3⟩,
          ⟨12, 0, 4, TokenData.none⟩] } := rfl
  have hfull : lexRun [50, 43, 51, 42, 52] initLexState = .ok
      { arr := [52, 0], strlen := 1, line := 0, column := 5, c := 52,
        isComment := false, isBlockComment := false, isStr := false,
        isEscaped := false, isNumber := true, hasDecimal := false,
        token1Index := -1, tokens := [⟨63, 0, 1, TokenData.int 2⟩,
          ⟨15, 0, 2, TokenData.none⟩,
          ⟨63, 0, 3, TokenData.int 3⟩,
          ⟨12, 0, 4, TokenData.none⟩,
          ⟨63, 0, 5, TokenData.int 4⟩] } := by
    rw [lexRun_cons_ok _ _ _ _ e0, lexRun_cons_ok _ _ _ _ e1, lexRun_cons_ok _ _ _ _ e2,
        lexRun_cons_ok _ _ _ _ e3, lexRun_cons_ok _ _ _ _ e4]
    exact rfl
  have htoks : tokenize [50, 43, 51, 42, 52] = .ok
      [⟨63, 0, 1, TokenData.int 2⟩, ⟨15, 0, 2, TokenData.none⟩, ⟨63, 0, 3, TokenData.int 3⟩,
       ⟨12, 0, 4, TokenData.none⟩, ⟨63, 0, 5, TokenData.int 4⟩] := by
    unfold tokenize
    rw [hfull]
  unfold astOf
  rw [htoks]
  show constructAST
      [⟨63, 0, 1, TokenData.int 2⟩, ⟨15, 0, 2, TokenData.none⟩, ⟨63, 0, 3, TokenData.int 3⟩,
       ⟨12, 0, 4, TokenData.none⟩, ⟨63, 0, 5, TokenData.int 4⟩] = _
  exact rfl

/-- Claim C2, counterexample: inside a square-bracket group the
encountered closing parenthesis raises INVALID_CLOSING_PAREN — the
error is named for the encountered closer's kind, not (as the claim
states) for the square kind being expected.  The MissingClosing case
fails the claim's position part too: "([]" leaves the paren kind open
at end-of-input and the code raises MISSING_CLOSING_PAREN, but at
position (-1,-1) — the position of the synthesized square-group node —
while every token of the input (listed explicitly) sits at line 0,
columns 1 to 3, so (-1,-1) is not the position of any offending
token. -/
theorem c2_counterexample :
    (astOf (strIn "[)") = .error ⟨.INVALID_CLOSING_PAREN, 0, 2⟩ ∧
      ErrorType.INVALID_CLOSING_PAREN ≠ ErrorType.INVALID_CLOSING_SQUARE) ∧
    astOf (strIn "([]") = .error ⟨.MISSING_CLOSING_PAREN, -1, -1⟩ ∧
    tokenize (strIn "([]") =
      .ok [⟨TT.LEFT_PAREN, 0, 1, TokenData.none⟩,
        ⟨TT.LEFT_SQUARE, 0, 2, TokenData.none⟩,
        ⟨TT.RIGHT_SQUARE, 0, 3, TokenData.none⟩] ∧
    ∀ t ∈ [(⟨TT.LEFT_PAREN, 0, 1, TokenData.none⟩ : Token),
        ⟨TT.LEFT_SQUARE, 0, 2, TokenData.none⟩,
        ⟨TT.RIGHT_SQUARE, 0, 3, TokenData.none⟩],
      ¬(t.line = -1 ∧ t.column = -1) := by
  have h1 : strIn "[)" = [91, 41] := rfl
  have h2 : strIn "([]" = [40, 91, 93] := rfl
  exact ⟨⟨by rw [h1]; exact rfl, by decide⟩,
    by rw [h2]; exact rfl, by rw [h2]; exact rfl, by decide⟩

/-- Claim C2 as amended: for every node sequence, bracket grouping is
balanced-or-error: if condenseAST succeeds the sequence's brackets are
balanced; when the reference matcher finds a wrong-kind closer first,
condenseAST raises the InvalidClosing error named for the ENCOUNTERED
closer's kind at that token's position, unless a precedence pass of an
earlier completed group threw one of the two binop errors first; when
it finds a kind still open at end-of-input, condenseAST raises the
matching MissingClosing error at some position, under the same proviso
(no particular position is asserted for this case: the code reads the
position off the last node of the partially resolved level, and
c2_counterexample computes it to be the (-1,-1) of a synthesized group
node — no token's position — on "([]"); and every unbalanced sequence
ends in some error. -/
theorem c2_brackets (nodes : List Node) :
    ((∃ out, condenseAST nodes = .ok out) → bscanTop nodes = some (.balanced [])) ∧
    (∀ k l c, bscanTop nodes = some (.invalid k l c) →
      condenseAST nodes = .error ⟨invalidClosingFor k, l, c⟩ ∨
        ∃ e, condenseAST nodes = .error e ∧
          (e.etype = .BINOP_MISSING_EXPRESSION ∨ e.etype = .BINOP_ILLEGAL_PATTERN)) ∧
    (∀ k, bscanTop nodes = some (.missing k) →
      (∃ l c, condenseAST nodes = .error ⟨missingClosingFor k, l, c⟩) ∨
        ∃ e, condenseAST nodes = .error e ∧
          (e.etype = .BINOP_MISSING_EXPRESSION ∨ e.etype = .BINOP_ILLEGAL_PATTERN)) ∧
    (bscanTop nodes ≠ some (.balanced []) → ∃ e, condenseAST nodes = .error e) := by
  simp only [bscanTop]
  have sim := condense_sim (nodes.length + 1) nodes NT_NONE [] (-1) (-1)
  have hnn := bscan_fuel (nodes.length + 1) nodes NT_NONE (by omega)
  have hca : ∀ (r : Except CompilerError (List Node × List Node)),
      condenseScan (nodes.length + 1) [] nodes NT_NONE (-1) (-1) = some r →
      condenseAST nodes = r.map Prod.fst := by
    intro r hr
    unfold condenseAST
    rw [hr]
  rcases hb : bscan (nodes.length + 1) nodes NT_NONE with _ | b
  · exact absurd hb hnn
  · rw [hb] at sim
    cases b with
    | balanced rem =>
      have hrem : rem = [] := (bscan_balanced_spec _ _ _ _ hb).2.2 rfl
      subst hrem
      refine ⟨fun _ => rfl, ?_, ?_, ?_⟩
      · intro k l c hk; simp at hk
      · intro k hk; simp at hk
      · intro hk; exact absurd rfl hk
    | invalid k0 l0 c0 =>
      rcases sim with hcs | ⟨e, hcs, he⟩
      · have hAST : condenseAST nodes = .error ⟨invalidClosingFor k0, l0, c0⟩ := hca _ hcs
        refine ⟨?_, ?_, ?_, ?_⟩
        · rintro ⟨out, hout⟩
          rw [hAST] at hout
          cases hout
        · intro k l c hk
          simp only [Option.some.injEq, BRes.invalid.injEq] at hk
          obtain ⟨rfl, rfl, rfl⟩ := hk
          exact Or.inl hAST
        · intro k hk; simp at hk
        · intro _; exact ⟨_, hAST⟩
      · have hAST : condenseAST nodes = .error e := hca _ hcs
        refine ⟨?_, ?_, ?_, ?_⟩
        · rintro ⟨out, hout⟩
          rw [hAST] at hout
          cases hout
        · intro k l c hk
          exact Or.inr ⟨e, hAST, he⟩
        · intro k hk; simp at hk
        · intro _; exact ⟨e, hAST⟩
    | missing k0 =>
      rcases sim with ⟨l0, c0, hcs⟩ | ⟨e, hcs, he⟩
      · have hAST : condenseAST nodes = .error ⟨missingClosingFor k0, l0, c0⟩ := hca _ hcs
        refine ⟨?_, ?_, ?_, ?_⟩
        · rintro ⟨out, hout⟩
          rw [hAST] at hout
          cases hout
        · intro k l c hk; simp at hk
        · intro k hk
          simp only [Option.some.injEq, BRes.missing.injEq] at hk
          subst hk
          exact Or.inl ⟨l0, c0, hAST⟩
        · intro _; exact ⟨_, hAST⟩
      · have hAST : condenseAST nodes = .error e := hca _ hcs
        refine ⟨?_, ?_, ?_, ?_⟩
        · rintro ⟨out, hout⟩
          rw [hAST] at hout
          cases hout
        · intro k l c hk; simp at hk
        · intro k hk
          exact Or.inr ⟨e, hAST, he⟩
        · intro _; exact ⟨e, hAST⟩

/-- Claim C2, witness: the amended theorem applied to two concrete node
sequences, exercising both error branches.  First, the tokens of "[)":
the first violation is a closing parenthesis at (0,2) inside a square
group, and condenseAST raises the paren-kind InvalidClosing error there
(no binop token precedes, so the left disjunct holds, as
c2_counterexample computes).  Second, the tokens of "([]": the square
group closes properly but the paren kind is still open at end-of-input,
and condenseAST raises MISSING_CLOSING_PAREN at some position
(c2_counterexample computes it to be (-1,-1)). -/
theorem c2_witness :
    (condenseAST [Node.token ⟨TT.LEFT_SQUARE, 0, 1, .none⟩,
        Node.token ⟨TT.RIGHT_PAREN, 0, 2, .none⟩] =
        .error ⟨invalidClosingFor NT_PAREN, 0, 2⟩ ∨
      ∃ e, condenseAST [Node.token ⟨TT.LEFT_SQUARE, 0, 1, .none⟩,
        Node.token ⟨TT.RIGHT_PAREN, 0, 2, .none⟩] = .error e ∧
        (e.etype = .BINOP_MISSING_EXPRESSION ∨ e.etype = .BINOP_ILLEGAL_PATTERN)) ∧
    ((∃ l c, condenseAST [Node.token ⟨TT.LEFT_PAREN, 0, 1, .none⟩,
        Node.token ⟨TT.LEFT_SQUARE, 0, 2, .none⟩,
        Node.token ⟨TT.RIGHT_SQUARE, 0, 3, .none⟩] =
        .error ⟨missingClosingFor NT_PAREN, l, c⟩) ∨
      ∃ e, condenseAST [Node.token ⟨TT.LEFT_PAREN, 0, 1, .none⟩,
        Node.token ⟨TT.LEFT_SQUARE, 0, 2, .none⟩,
        Node.token ⟨TT.RIGHT_SQUARE, 0, 3, .none⟩] = .error e ∧
        (e.etype = .BINOP_MISSING_EXPRESSION ∨ e.etype = .BINOP_ILLEGAL_PATTERN)) :=
  ⟨(c2_brackets _).2.1 NT_PAREN 0 2 rfl,
   (c2_brackets _).2.2.1 NT_PAREN rfl⟩

/-- Claim C3: binop type resolution is symmetric: resolving
(float, int) and (int, float) both select float, and in either operand
order the int operand — and only that operand — is wrapped in an
implicit cast to float. -/
theorem c3_binop_symmetric (l r : Node) (hl : l.evalType = .FLOAT) (hr : r.evalType = .INT) :
    resolveBinopOperands l r = some (l, Node.exprCast r .FLOAT, .FLOAT) ∧
    resolveBinopOperands r l = some (Node.exprCast r .FLOAT, l, .FLOAT) := by
  constructor <;>
    simp [resolveBinopOperands, findPattern, arithmeticBinopPatterns, hl, hr]

/-- Claim C3, witness: the theorem at a float literal and an int
literal. -/
theorem c3_witness :
    resolveBinopOperands (Node.exprFloat 1 0 0) (Node.exprInt 2 0 1) =
      some (Node.exprFloat 1 0 0, Node.exprCast (Node.exprInt 2 0 1) .FLOAT, .FLOAT) ∧
    resolveBinopOperands (Node.exprInt 2 0 1) (Node.exprFloat 1 0 0) =
      some (Node.exprCast (Node.exprInt 2 0 1) .FLOAT, Node.exprFloat 1 0 0, .FLOAT) :=
  c3_binop_symmetric (Node.exprFloat 1 0 0) (Node.exprInt 2 0 1) rfl rfl

/-- Claim C4, counterexample: a binary operation on two bool operands
does NOT raise BinopIllegalPattern: the final table entry
{INT, BOOL, BOOL} (the three-argument constructor) matches (bool,bool),
so the additive pass builds an int-typed binop with both operands cast
to int. -/
theorem c4_counterexample :
    condenseAST [Node.exprBool 1 0 0, Node.token ⟨TT.PLUS, 0, 1, .none⟩,
      Node.exprBool 0 0 2] =
      .ok [Node.exprBinop (Node.exprCast (Node.exprBool 1 0 0) .INT)
        (Node.exprCast (Node.exprBool 0 0 2) .INT) .ADD .INT 0 1] := rfl

/-- Claim C4 as amended: for every binary operation whose operands both
have evaluation type bool, the table's last entry {result int, a bool,
b bool} matches, so resolution yields result type int with BOTH
operands wrapped in implicit casts to int, and BinopIllegalPattern is
not raised. -/
theorem c4_bool_bool (l r : Node) (hl : l.evalType = .BOOL) (hr : r.evalType = .BOOL) :
    resolveBinopOperands l r = some (Node.exprCast l .INT, Node.exprCast r .INT, .INT) := by
  simp [resolveBinopOperands, findPattern, arithmeticBinopPatterns, hl, hr]

/-- Claim C4, witness: the amended theorem at two bool literals. -/
theorem c4_witness :
    resolveBinopOperands (Node.exprBool 1 0 0) (Node.exprBool 0 0 2) =
      some (Node.exprCast (Node.exprBool 1 0 0) .INT,
        Node.exprCast (Node.exprBool 0 0 2) .INT, .INT) :=
  c4_bool_bool (Node.exprBool 1 0 0) (Node.exprBool 0 0 2) rfl rfl

/-- Claim C5: evaluating the lexer at the failing input "//" shows a
SLASH_SLASH token IS emitted for the comment-opening pair (the
source's else binds to the SLASH_STAR check, not to both comment
checks), before comment mode consumes the rest of the line silently. -/
theorem c5_comment_token :
    tokenize (strIn "//") = .ok [⟨TT.SLASH_SLASH, 0, 1, .none⟩] := by
  have h : strIn "//" = [47, 47] := rfl
  rw [h]
  exact rfl

/-- Claim C6, counterexample: the unresolved-numeral text "09" — whose
second character 9 is none of x, b, d, `.` — is NOT rejected: a digit
second character skips the prefix check entirely and the text parses in
base 10, so the lexer emits NUM_INT 9. -/
theorem c6_counterexample :
    tokenize (strIn "09") = .ok [⟨TT.NUM_INT, 0, 2, .int 9⟩] := by
  have h : strIn "09" = [48, 57] := rfl
  rw [h]
  exact rfl

/-- Claim C6 as amended: for every unresolved-numeral text beginning
with 0 whose second character exists and is neither a digit nor one of
x, b, d, `.`, the Number Parser fails; and at such a text ("0z") the
lexer raises InvalidNumber. -/
theorem c6_zero_prefix :
    (∀ (c2 : Int) (rest : List Int) (line col : Int),
      ¬(48 ≤ c2 ∧ c2 ≤ 57) → c2 ≠ 120 → c2 ≠ 98 → c2 ≠ 100 → c2 ≠ 46 → c2 ≠ 0 →
      parseNumber ⟨TT.NUM_UNIDENTIFIED, line, col, .str (48 :: c2 :: rest)⟩ = Option.none) ∧
    tokenize (strIn "0z ") = .error ⟨.INVALID_NUMBER, 0, 2⟩ := by
  constructor
  · intro c2 rest line col hd hx hb hdd hdot hnul
    unfold parseNumber
    simp only [if_neg]
    simp [hx, hb, hdd, hdot, hnul]
    omega
  · have h : strIn "0z " = [48, 122, 32] := rfl
    rw [h]
    exact rfl

/-- Claim C6, witness: the amended theorem at the text "0z". -/
theorem c6_witness :
    parseNumber ⟨TT.NUM_UNIDENTIFIED, 0, 0, .str [48, 122]⟩ = Option.none :=
  c6_zero_prefix.1 122 [] 0 0 (by decide) (by decide) (by decide) (by decide)
    (by decide) (by decide)

/-- Claim C7, counterexample: a string literal whose content is exactly
1024 characters is NOT rejected: the closing-quote check precedes the
length check, so the STRING token is emitted with all 1024 characters. -/
theorem c7_counterexample :
    tokenize (34 :: (List.replicate 1024 97 ++ [34])) =
      .ok [⟨TT.STRING, 0, 1025, TokenData.str (List.replicate 1024 97)⟩] := by
  obtain ⟨s2, hrun, ha, hsl, hln, hcol, hc2, hf1, hf2, hf3, hf4, hf5, hf6, hf7, hf8⟩ :=
    lexRun_string_repl97 1024 [34]
      { arr := [], strlen := 0, line := 0, column := 0, c := 34,
        isComment := false, isBlockComment := false, isStr := true,
        isEscaped := false, isNumber := false, hasDecimal := false,
        token1Index := 21, tokens := [] }
      rfl rfl (by decide) (by decide) rfl
  have hA : lexRun (34 :: (List.replicate 1024 97 ++ [34])) initLexState =
      lexRun (List.replicate 1024 97 ++ [34])
      { arr := [], strlen := 0, line := 0, column := 0, c := 34,
        isComment := false, isBlockComment := false, isStr := true,
        isEscaped := false, isNumber := false, hasDecimal := false,
        token1Index := 21, tokens := [] } :=
    lexRun_cons_ok _ _ _ _ rfl
  have hclose := lexStep_string_close s2 (by rw [hf3]) (by rw [hf4]) hc2
  have hB : lexRun [34] s2 = lexRun [] _ := lexRun_cons_ok 34 [] s2 _ hclose
  obtain ⟨s4, hend, htoks⟩ := lexStep_end_quiet
    { s2 with
      isStr := false,
      arr := bufWrite s2.arr s2.strlen 0,
      tokens := s2.tokens ++
        [⟨TT.STRING, s2.line, s2.column + 1,
          TokenData.str (cstr ((bufWrite s2.arr s2.strlen 0).take s2.strlen))⟩],
      token1Index := -1, strlen := 0,
      column := s2.column + 1, c := 34 }
    rfl (by show s2.isBlockComment = false; rw [hf2]) (by show s2.isComment = false; rw [hf1])
    (by show s2.isNumber = false; rw [hf5]) rfl rfl rfl
  have hfull : lexRun (34 :: (List.replicate 1024 97 ++ [34])) initLexState = .ok s4 :=
    ((hA.trans hrun).trans hB).trans hend
  have hbw1024 : bufWrite (List.replicate 1024 97) 1024 0 = List.replicate 1024 97 ++ [0] := by
    simp [bufWrite]
  have htake1024 : (List.replicate 1024 97 ++ [0]).take 1024 = List.replicate 1024 97 := by
    simp
  have htok : s4.tokens = [⟨TT.STRING, 0, 1025, TokenData.str (List.replicate 1024 97)⟩] := by
    rw [htoks]
    show s2.tokens ++ [_] = _
    rw [hf8, hln, hcol, ha, hsl]
    dsimp only
    norm_num [hbw1024, htake1024, cstr_replicate97]
  unfold tokenize
  rw [hfull]
  show Except.ok s4.tokens = _
  rw [htok]

/-- Claim C7 as amended: StringTooLong is raised when a further
content character arrives with the accumulated length already at 1024:
every string literal whose ordinary content (no quote, no backslash)
is 1025 characters or longer is rejected, whatever follows; a content
of exactly 1024 characters is emitted (c7_counterexample). -/
theorem c7_too_long (content rest : List Int)
    (hplain : ∀ c ∈ content, c ≠ 34 ∧ c ≠ 92)
    (hlen : MAX_STR_SIZE + 1 ≤ content.length) :
    ∃ l col, tokenize (34 :: (content ++ rest)) = .error ⟨.STRING_TOO_LONG, l, col⟩ := by
  have h1 : lexStep initLexState 34 false = .ok
      { arr := [], strlen := 0, line := 0, column := 0, c := 34,
        isComment := false, isBlockComment := false, isStr := true,
        isEscaped := false, isNumber := false, hasDecimal := false,
        token1Index := 21, tokens := [] } := rfl
  obtain ⟨l, col, hrun⟩ := lexRun_string_overflow content rest
      { arr := [], strlen := 0, line := 0, column := 0, c := 34,
        isComment := false, isBlockComment := false, isStr := true,
        isEscaped := false, isNumber := false, hasDecimal := false,
        token1Index := 21, tokens := [] }
      hplain rfl rfl (by decide) (by show MAX_STR_SIZE < 0 + content.length; omega)
  refine ⟨l, col, ?_⟩
  simp only [tokenize, lexRun_cons, h1, hrun]

/-- Claim C7, witness: the amended theorem at a 1025-character content. -/
theorem c7_witness :
    ∃ l col, tokenize (34 :: (List.replicate 1025 97 ++ [])) =
      .error ⟨.STRING_TOO_LONG, l, col⟩ :=
  c7_too_long (List.replicate 1025 97) []
    (fun c hc => by
      rw [List.eq_of_mem_replicate hc]
      exact ⟨by decide, by decide⟩)
    (by norm_num [MAX_STR_SIZE])

/-- Claim C8: compiling the bare integer literal "42" emits exactly one
move-word-immediate record — one opcode byte, one destination-register
byte holding the id of the single newly acquired word register (the
first word register of a fresh pool), then the 4-byte value 42 — and
the byte counter advances by the record's fixed width, which is 6. -/
theorem c8_emit_42 :
    compileModel (strIn "42") =
      .ok (some ([WriteItem.opcode MOV_W, WriteItem.reg W0, WriteItem.int32 42],
        sizeof_opcode_t + sizeof_reg_t + sizeof_int_t)) ∧
    sizeof_opcode_t + sizeof_reg_t + sizeof_int_t = 6 := by
  have h : strIn "42" = [52, 50] := rfl
  exact ⟨by rw [h]; exact rfl, rfl⟩

/-- Claim C9: makeExprBytecode receives the RegManager by value, so
whenever makeBytecode returns, the manager it holds is its freshly
constructed one with every word register and every byte register still
free. -/
theorem c9_reg_by_value (list : List Node) (w : List WriteItem) (cnt : Nat) (rm : RegManager)
    (h : makeBytecode list = some (.ok (w, cnt, rm))) :
    rm.wordsActive = List.replicate NUM_WORD_REGISTERS false ∧
    rm.bytesActive = List.replicate NUM_BYTE_REGISTERS false := by
  cases list with
  | nil => simp [makeBytecode] at h
  | cons n rest =>
    unfold makeBytecode at h
    by_cases he : n.isExpr
    · simp only [he, if_true] at h
      rcases hmk : makeExprBytecode n RegManager.init with e | r
      · rw [hmk] at h
        simp [Except.map] at h
      · rw [hmk] at h
        simp [Except.map] at h
        obtain ⟨h1, h2, h3⟩ := h
        subst h3
        exact ⟨rfl, rfl⟩
    · simp only [he, if_false] at h
      simp at h
      obtain ⟨h1, h2, h3⟩ := h
      subst h3
      exact ⟨rfl, rfl⟩

/-- Claim C9, witness: the theorem at the node list of the program
"42". -/
theorem c9_witness :
    RegManager.init.wordsActive = List.replicate NUM_WORD_REGISTERS false ∧
    RegManager.init.bytesActive = List.replicate NUM_BYTE_REGISTERS false :=
  c9_reg_by_value [Node.exprInt 42 0 2]
    [WriteItem.opcode MOV_W, WriteItem.reg W0, WriteItem.int32 42]
    (sizeof_opcode_t + sizeof_reg_t + sizeof_int_t) RegManager.init rfl

/-- Claim C10: on a float, bool, char, implicit-cast or binary-operation
node, makeExprBytecode writes nothing, advances the byte counter by
zero, acquires no register (its local pool copy is returned untouched)
and returns register id 0. -/
theorem c10_unimplemented_cases (e : Node) (reg : RegManager)
    (h : e.ntype = 7 ∨ e.ntype = 8 ∨ e.ntype = 9 ∨ e.ntype = 10 ∨ e.ntype = 11) :
    makeExprBytecode e reg = .ok ([], 0, 0, reg) := by
  cases e <;> simp [Node.ntype, NT_PAREN, NT_SQUARE, NT_CURLY] at h ⊢ <;> rfl

/-- Claim C10, witness: the theorem at a float literal node. -/
theorem c10_witness :
    makeExprBytecode (Node.exprFloat 0 0 0) RegManager.init = .ok ([], 0, 0, RegManager.init) :=
  c10_unimplemented_cases (Node.exprFloat 0 0 0) RegManager.init (Or.inl rfl)

end Z
